import Mathlib

/-!
Verification of the bestmua-data crawl/normalize/persist/export pipeline.

Shallow embedding of the Python sources in `bestmua_data/` (normalizer.py,
database.py, crawler.py, detail_parser.py, list_parser.py, exporter.py,
models.py).  Machine text is modelled as `String`/`List Char`, Python floats
as `ℚ` (all prices and percentages in scope are exact decimals), datetimes as
`Nat` tick counts, and fallible database operations as `Except String`.
-/

set_option linter.unusedVariables false
set_option maxRecDepth 100000

namespace Bestmua

/-! ## Character-level utilities shared by the normalizer and the parsers

Python `str.strip()` and the regex class `\s` are modelled over the ASCII
whitespace repertoire `space, \t, \n, \r, \v, \f`, which is the repertoire the
source data exercises. -/

def isSpaceChar (c : Char) : Bool :=
  c = ' ' || c = Char.ofNat 9 || c = Char.ofNat 10 || c = Char.ofNat 13 ||
    c = Char.ofNat 11 || c = Char.ofNat 12

/-- Strip characters satisfying `p` from both ends of a character list
(Python `str.strip(chars)`). -/
def stripChars (p : Char → Bool) (l : List Char) : List Char :=
  ((l.dropWhile p).reverse.dropWhile p).reverse

/-- The Vietnamese transliteration table built by
`DataNormalizer._build_vietnamese_chars_map` (normalizer.py lines 414-444),
in source order: lowercase entries first, then uppercase entries. -/
def vnPairs : List (Char × Char) :=
  [('á', 'a'), ('à', 'a'), ('ả', 'a'), ('ã', 'a'), ('ạ', 'a'),
   ('ă', 'a'), ('ắ', 'a'), ('ằ', 'a'), ('ẳ', 'a'), ('ẵ', 'a'), ('ặ', 'a'),
   ('â', 'a'), ('ấ', 'a'), ('ầ', 'a'), ('ẩ', 'a'), ('ẫ', 'a'), ('ậ', 'a'),
   ('é', 'e'), ('è', 'e'), ('ẻ', 'e'), ('ẽ', 'e'), ('ẹ', 'e'),
   ('ê', 'e'), ('ế', 'e'), ('ề', 'e'), ('ể', 'e'), ('ễ', 'e'), ('ệ', 'e'),
   ('í', 'i'), ('ì', 'i'), ('ỉ', 'i'), ('ĩ', 'i'), ('ị', 'i'),
   ('ó', 'o'), ('ò', 'o'), ('ỏ', 'o'), ('õ', 'o'), ('ọ', 'o'),
   ('ô', 'o'), ('ố', 'o'), ('ồ', 'o'), ('ổ', 'o'), ('ỗ', 'o'), ('ộ', 'o'),
   ('ơ', 'o'), ('ớ', 'o'), ('ờ', 'o'), ('ở', 'o'), ('ỡ', 'o'), ('ợ', 'o'),
   ('ú', 'u'), ('ù', 'u'), ('ủ', 'u'), ('ũ', 'u'), ('ụ', 'u'),
   ('ư', 'u'), ('ứ', 'u'), ('ừ', 'u'), ('ử', 'u'), ('ữ', 'u'), ('ự', 'u'),
   ('ý', 'y'), ('ỳ', 'y'), ('ỷ', 'y'), ('ỹ', 'y'), ('ỵ', 'y'),
   ('đ', 'd'),
   ('Á', 'A'), ('À', 'A'), ('Ả', 'A'), ('Ã', 'A'), ('Ạ', 'A'),
   ('Ă', 'A'), ('Ắ', 'A'), ('Ằ', 'A'), ('Ẳ', 'A'), ('Ẵ', 'A'), ('Ặ', 'A'),
   ('Â', 'A'), ('Ấ', 'A'), ('Ầ', 'A'), ('Ẩ', 'A'), ('Ẫ', 'A'), ('Ậ', 'A'),
   ('É', 'E'), ('È', 'E'), ('Ẻ', 'E'), ('Ẽ', 'E'), ('Ẹ', 'E'),
   ('Ê', 'E'), ('Ế', 'E'), ('Ề', 'E'), ('Ể', 'E'), ('Ễ', 'E'), ('Ệ', 'E'),
   ('Í', 'I'), ('Ì', 'I'), ('Ỉ', 'I'), ('Ĩ', 'I'), ('Ị', 'I'),
   ('Ó', 'O'), ('Ò', 'O'), ('Ỏ', 'O'), ('Õ', 'O'), ('Ọ', 'O'),
   ('Ô', 'O'), ('Ố', 'O'), ('Ồ', 'O'), ('Ổ', 'O'), ('Ỗ', 'O'), ('Ộ', 'O'),
   ('Ơ', 'O'), ('Ớ', 'O'), ('Ờ', 'O'), ('Ở', 'O'), ('Ỡ', 'O'), ('Ợ', 'O'),
   ('Ú', 'U'), ('Ù', 'U'), ('Ủ', 'U'), ('Ũ', 'U'), ('Ụ', 'U'),
   ('Ư', 'U'), ('Ứ', 'U'), ('Ừ', 'U'), ('Ử', 'U'), ('Ữ', 'U'), ('Ự', 'U'),
   ('Ý', 'Y'), ('Ỳ', 'Y'), ('Ỷ', 'Y'), ('Ỹ', 'Y'), ('Ỵ', 'Y'),
   ('Đ', 'D')]

/-- One step of the replacement loop
`for vn_char, en_char in self.vietnamese_chars_map.items(): slug_str.replace(...)`.
Every key and every value of the table is a single character and no value is a
key, so the sequential `str.replace` loop acts as this single character map. -/
def vnChar (c : Char) : Char :=
  match vnPairs.find? (fun p => p.1 == c) with
  | some p => p.2
  | none => c

/-- Python `str.lower()` restricted to the repertoire this module manipulates:
the 26 ASCII capitals plus the uppercase Vietnamese letters of the
transliteration table (each mapped to its precomposed lowercase letter, as
Unicode lowercasing does).  Characters outside this repertoire are left
unchanged; they are erased later by the `[^\w\s-]` filter. -/
def lowerPairs : List (Char × Char) :=
  [('A', 'a'), ('B', 'b'), ('C', 'c'), ('D', 'd'), ('E', 'e'), ('F', 'f'),
   ('G', 'g'), ('H', 'h'), ('I', 'i'), ('J', 'j'), ('K', 'k'), ('L', 'l'),
   ('M', 'm'), ('N', 'n'), ('O', 'o'), ('P', 'p'), ('Q', 'q'), ('R', 'r'),
   ('S', 's'), ('T', 't'), ('U', 'u'), ('V', 'v'), ('W', 'w'), ('X', 'x'),
   ('Y', 'y'), ('Z', 'z'),
   ('Á', 'á'), ('À', 'à'), ('Ả', 'ả'), ('Ã', 'ã'), ('Ạ', 'ạ'),
   ('Ă', 'ă'), ('Ắ', 'ắ'), ('Ằ', 'ằ'), ('Ẳ', 'ẳ'), ('Ẵ', 'ẵ'), ('Ặ', 'ặ'),
   ('Â', 'â'), ('Ấ', 'ấ'), ('Ầ', 'ầ'), ('Ẩ', 'ẩ'), ('Ẫ', 'ẫ'), ('Ậ', 'ậ'),
   ('É', 'é'), ('È', 'è'), ('Ẻ', 'ẻ'), ('Ẽ', 'ẽ'), ('Ẹ', 'ẹ'),
   ('Ê', 'ê'), ('Ế', 'ế'), ('Ề', 'ề'), ('Ể', 'ể'), ('Ễ', 'ễ'), ('Ệ', 'ệ'),
   ('Í', 'í'), ('Ì', 'ì'), ('Ỉ', 'ỉ'), ('Ĩ', 'ĩ'), ('Ị', 'ị'),
   ('Ó', 'ó'), ('Ò', 'ò'), ('Ỏ', 'ỏ'), ('Õ', 'õ'), ('Ọ', 'ọ'),
   ('Ô', 'ô'), ('Ố', 'ố'), ('Ồ', 'ồ'), ('Ổ', 'ổ'), ('Ỗ', 'ỗ'), ('Ộ', 'ộ'),
   ('Ơ', 'ơ'), ('Ớ', 'ớ'), ('Ờ', 'ờ'), ('Ở', 'ở'), ('Ỡ', 'ỡ'), ('Ợ', 'ợ'),
   ('Ú', 'ú'), ('Ù', 'ù'), ('Ủ', 'ủ'), ('Ũ', 'ũ'), ('Ụ', 'ụ'),
   ('Ư', 'ư'), ('Ứ', 'ứ'), ('Ừ', 'ừ'), ('Ử', 'ử'), ('Ữ', 'ữ'), ('Ự', 'ự'),
   ('Ý', 'ý'), ('Ỳ', 'ỳ'), ('Ỷ', 'ỷ'), ('Ỹ', 'ỹ'), ('Ỵ', 'ỵ'),
   ('Đ', 'đ')]

def pyLowerChar (c : Char) : Char :=
  match lowerPairs.find? (fun p => p.1 == c) with
  | some p => p.2
  | none => c

/-- The regex class `\w` of `re.sub(r'[^\w\s-]', '', ...)`, modelled on the
ASCII repertoire (letters, digits, underscore).  Non-ASCII word characters of
the input either belong to the transliteration table, in which case they have
been replaced before this filter runs, or fall outside the repertoire the
module handles. -/
def isWordChar (c : Char) : Bool :=
  c.isAlphanum || c = '_'

/-- One foldr step of `collapseRunsWith`. -/
def collapseStep (p : Char → Bool) (rep : Char) (c : Char) (acc : List Char) : List Char :=
  if p c then
    match acc with
    | a :: _ => if a = rep then acc else rep :: acc
    | [] => [rep]
  else c :: acc

/-- `re.sub` of a regex class `X+` by a single replacement character `rep`
(`re.sub(r'[-\s]+', '-', ...)` and `re.sub(r'\s+', ' ', ...)`): every maximal
run of characters satisfying `p` becomes one `rep`.  `rep` itself satisfies
`p` at both call sites. -/
def collapseRunsWith (p : Char → Bool) (rep : Char) (l : List Char) : List Char :=
  l.foldr (collapseStep p rep) []

/-- The character class kept by `re.sub(r'[^\w\s-]', '', ...)`. -/
def keepChar (c : Char) : Bool :=
  isWordChar c || isSpaceChar c || c = '-'

/-- The character class of `re.sub(r'[-\s]+', '-', ...)`. -/
def isDashSpace (c : Char) : Bool :=
  c = '-' || isSpaceChar c

/-- The character set of `str.strip('/ ')`. -/
def isSlashSpace (c : Char) : Bool :=
  c = '/' || c = ' '

/-- The character pipeline of `normalize_slug` after the emptiness guard:
strip whitespace, lowercase, strip slashes and spaces, transliterate, drop
characters outside `[\w\s-]`, collapse `[-\s]+` runs to `-`, strip hyphens. -/
def slugCore (l : List Char) : List Char :=
  let s1 := (stripChars isSpaceChar l).map pyLowerChar
  let s2 := stripChars isSlashSpace s1
  let s3 := s2.map vnChar
  let s4 := s3.filter keepChar
  let s5 := collapseRunsWith isDashSpace '-' s4
  stripChars (fun c => c = '-') s5

/-- `DataNormalizer.normalize_slug` (normalizer.py lines 159-185) on string
input.  Python falsiness of a string is emptiness, so the
`if not slug: return ''` guard is the first branch.  The `try` body contains
no failing operation for string input, so the `except` default is dead. -/
def normalize_slug (slug : String) : String :=
  if slug = "" then ""
  else
    let s6 := slugCore slug.toList
    if s6.isEmpty then "unknown" else String.mk s6

/-! ## Python values and numeric parsing

`PyVal` models the loosely typed values the scrapers hand to the normalizer.
Python floats are modelled as rationals: every literal the pipeline
manipulates is an exact decimal. -/

inductive PyVal where
  | none
  | bool (b : Bool)
  | int (n : ℤ)
  | float (q : ℚ)
  | str (s : String)
  | list (l : List PyVal)

def digitsToNat (ds : List Char) : Nat :=
  ds.foldl (fun n c => 10 * n + (c.toNat - 48)) 0

/-- `sgn * digits * 10 ^ scale` as a rational, built with one `mkRat` so that
it evaluates inside the kernel. -/
def decimalValue (sgn : ℤ) (digits : Nat) (scale : ℤ) : ℚ :=
  if 0 ≤ scale then mkRat (sgn * digits * (10 : ℤ) ^ scale.toNat) 1
  else mkRat (sgn * digits) ((10 : ℕ) ^ (-scale).toNat)

/-- Python `float(str)` on the repertoire this code feeds it: optional
surrounding whitespace, optional sign, decimal mantissa, optional exponent.
`inf`/`nan` spellings and digit-group underscores are outside the repertoire
and are not modelled.  `Option.none` is the `ValueError` outcome. -/
def pyFloat (s : String) : Option ℚ :=
  let l := stripChars isSpaceChar s.toList
  let sgn : ℤ := match l with
    | '-' :: _ => -1
    | _ => 1
  let l1 : List Char := match l with
    | '+' :: t => t
    | '-' :: t => t
    | _ => l
  let ip := l1.takeWhile Char.isDigit
  let r1 := l1.dropWhile Char.isDigit
  let fp : List Char := match r1 with
    | '.' :: t => t.takeWhile Char.isDigit
    | _ => []
  let r2 : List Char := match r1 with
    | '.' :: t => t.dropWhile Char.isDigit
    | _ => r1
  if ip.isEmpty && fp.isEmpty then Option.none
  else
    let digits := digitsToNat (ip ++ fp)
    match r2 with
    | [] => some (decimalValue sgn digits (-(fp.length : ℤ)))
    | e :: t =>
      if e = 'e' || e = 'E' then
        let esgn : ℤ := match t with
          | '-' :: _ => -1
          | _ => 1
        let t1 : List Char := match t with
          | '+' :: u => u
          | '-' :: u => u
          | _ => t
        let ed := t1.takeWhile Char.isDigit
        let rest := t1.dropWhile Char.isDigit
        if ed.isEmpty || !rest.isEmpty then Option.none
        else some (decimalValue sgn digits (esgn * (digitsToNat ed : ℤ) - (fp.length : ℤ)))
      else Option.none

/-- The cleaning step shared by the three price parsers:
`re.sub(r'[^\d.,]', '', text.replace(',', ''))`.  The regex class `\d` is
modelled as the ASCII digits. -/
def cleanPriceText (s : String) : List Char :=
  (s.toList.filter (fun c => !(c = ','))).filter
    (fun c => c.isDigit || c = '.' || c = ',')

/-- `ProductDetailParser._parse_price` (detail_parser.py lines 300-316) and
`ProductListParser._parse_price` (list_parser.py lines 241-259).  Both bodies
reduce to cleaning followed by one `float(...)` attempt: in the detail parser
both branches of the decimal-format `if` call `float(price_clean)`, and in the
list parser the second `try` repeats the first. -/
def parse_price (price_text : String) : Option ℚ :=
  if price_text = "" then Option.none
  else pyFloat (String.mk (cleanPriceText price_text))

/-- `DataNormalizer.normalize_price` (normalizer.py lines 205-233).
`price == ''` only holds for the empty string; `isinstance(price, (int, float))`
also accepts booleans (`float(True) = 1.0`); for strings, an empty cleaned
text short-circuits to `None` before the `float` attempt. -/
def normalize_price (price : PyVal) : Option ℚ :=
  match price with
  | .none => Option.none
  | .bool b => some (if b then 1 else 0)
  | .int n => if 0 ≤ n then some (n : ℚ) else Option.none
  | .float q => if 0 ≤ q then some q else Option.none
  | .str s =>
    if s = "" then Option.none
    else
      let cleaned := cleanPriceText s
      if cleaned.isEmpty then Option.none
      else pyFloat (String.mk cleaned)
  | .list _ => Option.none

/-! ## Price extraction and discount computation -/

/-- Python `round(x, 2)` on an exact decimal: round half to even at the second
decimal place. -/
def roundHalfEven (x : ℚ) : ℤ :=
  if x - ⌊x⌋ < 1/2 then ⌊x⌋
  else if 1/2 < x - ⌊x⌋ then ⌊x⌋ + 1
  else if Even ⌊x⌋ then ⌊x⌋ else ⌊x⌋ + 1

def pyRound2 (x : ℚ) : ℚ :=
  (roundHalfEven (100 * x) : ℚ) / 100

/-- The selector loops of `_extract_price_info`: the text of each matched
element is tried in selector order; the first price whose parse is truthy is
kept (`if price:` also rejects a parsed `0.0`, in which case the loop goes on
to the next selector). -/
def firstParsedPrice : List String → Option ℚ
  | [] => Option.none
  | t :: rest =>
    match parse_price t with
    | some v => if v = 0 then firstParsedPrice rest else some v
    | Option.none => firstParsedPrice rest

structure PriceInfo where
  price : Option ℚ
  original_price : Option ℚ
  discount_percentage : Option ℚ

/-- `ProductDetailParser._extract_price_info` (detail_parser.py lines 245-298)
and the identical fragment of `ProductListParser._extract_price_info`
(list_parser.py lines 186-239): current and original price come from their
selector loops, and `discount_percentage` is computed exactly when both are
present as `round((original - price) / original * 100, 2)`. -/
def extract_price_info (priceTexts origTexts : List String) : PriceInfo :=
  let p := firstParsedPrice priceTexts
  let o := firstParsedPrice origTexts
  { price := p
    original_price := o
    discount_percentage :=
      match p, o with
      | some pv, some ov => some (pyRound2 ((ov - pv) / ov * 100))
      | _, _ => Option.none }

/-! ## Persistence layer: rows and database state (models.py, database.py)

Datetimes are tick counts (`Nat`), passed to each operation as `now`
(`datetime.utcnow()`).  Query `.first()` is `List.find?` in insertion order.
A raised `IntegrityError`/`SQLAlchemyError` is `Except.error`; each operation
returns the database it leaves behind (rollback undoes the uncommitted row
change but keeps side effects that were already committed). -/

structure CategoryRow where
  id : Nat
  name : String
  slug : String
  url : String
  parent_id : Option Nat
  description : String
  created_at : Nat
  updated_at : Nat
deriving DecidableEq, Repr

structure BrandRow where
  id : Nat
  name : String
  slug : String
  url : String
  description : String
  created_at : Nat
  updated_at : Nat
deriving DecidableEq, Repr

structure ProductRow where
  id : Nat
  name : String
  slug : String
  url : String
  description : String
  price : Option ℚ
  original_price : Option ℚ
  discount_percentage : Option ℚ
  sku : String
  availability : String
  rating : Option ℚ
  review_count : ℤ
  image_url : String
  images : String
  ingredients : String
  usage_instructions : String
  category_id : Option Nat
  brand_id : Option Nat
  is_featured : Bool
  is_bestseller : Bool
  is_new : Bool
  is_sale : Bool
  created_at : Nat
  updated_at : Nat
deriving DecidableEq, Repr

structure SessionRow where
  id : Nat
  started_at : Nat
  finished_at : Option Nat
  status : String
  categories_found : Nat
  products_found : Nat
  products_updated : Nat
  products_created : Nat
  errors : Option String
deriving DecidableEq, Repr

structure DB where
  categories : List CategoryRow
  brands : List BrandRow
  products : List ProductRow
  sessions : List SessionRow
  nextCategoryId : Nat
  nextBrandId : Nat
  nextProductId : Nat
  nextSessionId : Nat
deriving DecidableEq, Repr

def emptyDB : DB :=
  { categories := [], brands := [], products := [], sessions := [],
    nextCategoryId := 1, nextBrandId := 1, nextProductId := 1, nextSessionId := 1 }

/-- A normalized category payload (`normalize_category` always provides these
five keys; Python falsiness of a string value is emptiness). -/
structure CategoryData where
  name : String
  slug : String
  url : String
  description : String
  parent_slug : String
deriving DecidableEq, Repr

/-- A normalized brand payload. -/
structure BrandData where
  name : String
  slug : String
  url : String
  description : String
deriving DecidableEq, Repr

/-- A normalized product payload.  `name`, `slug` and `url` are indexed
directly by `upsert_product` (`KeyError` if missing) and are plain fields;
every other entry is `Option`, where `none` is a key that is absent or has
value `None` — the two cases the update loop's `value is not None` guard and
the create path's `.get(key, default)` treat alike. -/
structure ProductData where
  name : String
  slug : String
  url : String
  description : Option String
  price : Option ℚ
  original_price : Option ℚ
  discount_percentage : Option ℚ
  sku : Option String
  availability : Option String
  rating : Option ℚ
  review_count : Option ℤ
  image_url : Option String
  images : Option String
  ingredients : Option String
  usage_instructions : Option String
  category_name : Option String
  brand_name : Option String
  is_featured : Option Bool
  is_bestseller : Option Bool
  is_new : Option Bool
  is_sale : Option Bool
deriving DecidableEq, Repr

/-- `setattr(existing, key, value)` when `value is not None`, else keep. -/
def updOpt {α : Type} (new : Option α) (old : α) : α :=
  match new with
  | some v => v
  | Option.none => old

/-- Overwrite guard of the category/brand update loops: `if ... and value:`
(truthiness — empty strings are skipped). -/
def updTruthy (new old : String) : String :=
  if new = "" then old else new

/-- The in-place overwrite performed by the `upsert_category` update loop. -/
def categoryUpdateRow (data : CategoryData) (now : Nat) (existing : CategoryRow) :
    CategoryRow :=
  { existing with
    name := updTruthy data.name existing.name
    url := updTruthy data.url existing.url
    description := updTruthy data.description existing.description
    updated_at := now }

/-- The fresh `Category(...)` row of the `upsert_category` create path, with
the parent resolved by `parent_slug` when truthy. -/
def categoryCreateRow (data : CategoryData) (now : Nat) (db : DB) : CategoryRow :=
  { id := db.nextCategoryId, name := data.name, slug := data.slug,
    url := data.url,
    parent_id :=
      (if data.parent_slug ≠ "" then
        db.categories.find? (fun c => c.slug == data.parent_slug)
      else Option.none).map (fun c => c.id),
    description := data.description, created_at := now, updated_at := now }

/-- `DatabaseManager.upsert_category` (database.py lines 28-89).  The update
loop `for key, value in category_data.items(): if key != 'slug' and value:`
overwrites `name`, `url` and `description` when the value is truthy; the
`parent_slug` item sets a non-column attribute on the ORM object and leaves
the stored row (in particular `parent_id`) unchanged; `updated_at` is bumped.
The create path resolves `parent` by `parent_slug` when truthy, then inserts.
A commit that violates the unique constraints on `categories.name` or
`categories.slug` raises, modelled as `Except.error` with the state rolled
back. -/
def upsert_category (data : CategoryData) (now : Nat) (db : DB) :
    Except String (CategoryRow × Bool) × DB :=
  match db.categories.find? (fun c => c.slug == data.slug) with
  | some existing =>
    if db.categories.any (fun c => decide (c.id ≠ existing.id) &&
        c.name == (categoryUpdateRow data now existing).name) then
      (.error "IntegrityError", db)
    else
      (.ok (categoryUpdateRow data now existing, false),
       { db with categories := db.categories.map (fun c =>
           if c.id = existing.id then categoryUpdateRow data now existing else c) })
  | Option.none =>
    if db.categories.any (fun c => c.name == data.name || c.slug == data.slug) then
      (.error "IntegrityError", db)
    else
      (.ok (categoryCreateRow data now db, true),
       { db with categories := db.categories ++ [categoryCreateRow data now db],
                 nextCategoryId := db.nextCategoryId + 1 })

/-- The in-place overwrite performed by the `upsert_brand` update loop. -/
def brandUpdateRow (data : BrandData) (now : Nat) (existing : BrandRow) : BrandRow :=
  { existing with
    name := updTruthy data.name existing.name
    url := updTruthy data.url existing.url
    description := updTruthy data.description existing.description
    updated_at := now }

/-- The fresh `Brand(...)` row of the `upsert_brand` create path. -/
def brandCreateRow (data : BrandData) (now : Nat) (db : DB) : BrandRow :=
  { id := db.nextBrandId, name := data.name, slug := data.slug,
    url := data.url, description := data.description,
    created_at := now, updated_at := now }

/-- `DatabaseManager.upsert_brand` (database.py lines 91-144): same shape as
`upsert_category` without the parent handling; `brands.name` and `brands.slug`
are both unique. -/
def upsert_brand (data : BrandData) (now : Nat) (db : DB) :
    Except String (BrandRow × Bool) × DB :=
  match db.brands.find? (fun b => b.slug == data.slug) with
  | some existing =>
    if db.brands.any (fun b => decide (b.id ≠ existing.id) &&
        b.name == (brandUpdateRow data now existing).name) then
      (.error "IntegrityError", db)
    else
      (.ok (brandUpdateRow data now existing, false),
       { db with brands := db.brands.map (fun b =>
           if b.id = existing.id then brandUpdateRow data now existing else b) })
  | Option.none =>
    if db.brands.any (fun b => b.name == data.name || b.slug == data.slug) then
      (.error "IntegrityError", db)
    else
      (.ok (brandCreateRow data now db, true),
       { db with brands := db.brands ++ [brandCreateRow data now db],
                 nextBrandId := db.nextBrandId + 1 })

/-- `DatabaseManager._get_or_create_category_by_name` (database.py lines
251-281): exact-name lookup, else upsert a stub with a generated slug; any
exception is caught and turned into `None` (with the failed insert rolled
back). -/
def get_or_create_category_by_name (category_name : String) (now : Nat) (db : DB) :
    Option CategoryRow × DB :=
  if category_name = "" then (Option.none, db)
  else
    match db.categories.find? (fun c => c.name == category_name) with
    | some c => (some c, db)
    | Option.none =>
      let data : CategoryData :=
        { name := category_name, slug := normalize_slug category_name,
          url := "", description := "", parent_slug := "" }
      match upsert_category data now db with
      | (.ok (row, _), db') => (some row, db')
      | (.error _, db') => (Option.none, db')

/-- `DatabaseManager._get_or_create_brand_by_name` (database.py lines
283-313). -/
def get_or_create_brand_by_name (brand_name : String) (now : Nat) (db : DB) :
    Option BrandRow × DB :=
  if brand_name = "" then (Option.none, db)
  else
    match db.brands.find? (fun b => b.name == brand_name) with
    | some b => (some b, db)
    | Option.none =>
      let data : BrandData :=
        { name := brand_name, slug := normalize_slug brand_name,
          url := "", description := "" }
      match upsert_brand data now db with
      | (.ok (row, _), db') => (some row, db')
      | (.error _, db') => (Option.none, db')

/-- The in-place overwrite performed by the `upsert_product` update loop and
relationship handling: every payload item whose value `is not None` is
written except `slug`, `category_id`, `brand_id`; the resolved category/brand
reassign the foreign keys only on success. -/
def productUpdateRow (data : ProductData) (now : Nat) (existing : ProductRow)
    (cat : Option CategoryRow) (brand : Option BrandRow) : ProductRow :=
  { existing with
    name := data.name
    url := data.url
    description := updOpt data.description existing.description
    price := updOpt (data.price.map some) existing.price
    original_price := updOpt (data.original_price.map some) existing.original_price
    discount_percentage :=
      updOpt (data.discount_percentage.map some) existing.discount_percentage
    sku := updOpt data.sku existing.sku
    availability := updOpt data.availability existing.availability
    rating := updOpt (data.rating.map some) existing.rating
    review_count := updOpt data.review_count existing.review_count
    image_url := updOpt data.image_url existing.image_url
    images := updOpt data.images existing.images
    ingredients := updOpt data.ingredients existing.ingredients
    usage_instructions := updOpt data.usage_instructions existing.usage_instructions
    is_featured := updOpt data.is_featured existing.is_featured
    is_bestseller := updOpt data.is_bestseller existing.is_bestseller
    is_new := updOpt data.is_new existing.is_new
    is_sale := updOpt data.is_sale existing.is_sale
    category_id := match cat with
      | some c => some c.id
      | Option.none => existing.category_id
    brand_id := match brand with
      | some b => some b.id
      | Option.none => existing.brand_id
    updated_at := now }

/-- The fresh `Product(...)` row of the `upsert_product` create path, with
the source's `.get(key, default)` defaults. -/
def productCreateRow (data : ProductData) (now : Nat) (id : Nat)
    (cat : Option CategoryRow) (brand : Option BrandRow) : ProductRow :=
  { id := id
    name := data.name
    slug := data.slug
    url := data.url
    description := data.description.getD ""
    price := data.price
    original_price := data.original_price
    discount_percentage := data.discount_percentage
    sku := data.sku.getD ""
    availability := data.availability.getD "unknown"
    rating := data.rating
    review_count := data.review_count.getD 0
    image_url := data.image_url.getD ""
    images := data.images.getD ""
    ingredients := data.ingredients.getD ""
    usage_instructions := data.usage_instructions.getD ""
    category_id := cat.map (fun c => c.id)
    brand_id := brand.map (fun b => b.id)
    is_featured := data.is_featured.getD false
    is_bestseller := data.is_bestseller.getD false
    is_new := data.is_new.getD false
    is_sale := data.is_sale.getD false
    created_at := now
    updated_at := now }

/-- `DatabaseManager.upsert_product` (database.py lines 146-249).  Existence
is checked by `slug` OR `url`.  The update loop overwrites every item whose
value `is not None` except `slug`, `category_id` and `brand_id` — `url` and
empty strings included; `category_name`/`brand_name` set non-column ORM
attributes with no row effect, while the relationships are resolved through
the get-or-create helpers (only a successful resolution reassigns the id).
`if product_data.get('category_name')` guards with truthiness, and the helper
itself returns `None` for an empty name, so the guard is folded into the
helper call.  The commit checks the unique constraints on `products.slug`
and `products.url` against the other rows, and on the create path the
`NOT NULL` constraint on `products.category_id` (models.py line 72): an
insert whose category resolution yielded nothing raises `IntegrityError`.
The update path never writes that column back to `NULL`, so no such check
arises there. -/
def upsert_product (data : ProductData) (now : Nat) (db : DB) :
    Except String (ProductRow × Bool) × DB :=
  match db.products.find? (fun p => p.slug == data.slug || p.url == data.url) with
  | some existing =>
    match get_or_create_category_by_name (data.category_name.getD "") now db with
    | (cat, db1) =>
      match get_or_create_brand_by_name (data.brand_name.getD "") now db1 with
      | (brand, db2) =>
        if db2.products.any (fun p => decide (p.id ≠ existing.id) &&
            (p.slug == (productUpdateRow data now existing cat brand).slug ||
              p.url == (productUpdateRow data now existing cat brand).url)) then
          (.error "IntegrityError", db2)
        else
          (.ok (productUpdateRow data now existing cat brand, false),
           { db2 with products := db2.products.map (fun p =>
               if p.id = existing.id then productUpdateRow data now existing cat brand
               else p) })
  | Option.none =>
    match get_or_create_category_by_name (data.category_name.getD "") now db with
    | (cat, db1) =>
      match get_or_create_brand_by_name (data.brand_name.getD "") now db1 with
      | (brand, db2) =>
        if db2.products.any (fun p => p.slug == data.slug || p.url == data.url)
            || cat.isNone then
          (.error "IntegrityError", db2)
        else
          (.ok (productCreateRow data now db2.nextProductId cat brand, true),
           { db2 with
             products := db2.products ++ [productCreateRow data now db2.nextProductId cat brand],
             nextProductId := db2.nextProductId + 1 })

structure BulkStats where
  total : Nat
  created : Nat
  updated : Nat
  errors : Nat
deriving DecidableEq, Repr

/-- The `for product_data in products_data:` loop of `bulk_upsert_products`,
threading the tallies and the database. -/
def bulk_upsert_loop (now : Nat) :
    List ProductData → BulkStats → DB → BulkStats × DB
  | [], stats, db => (stats, db)
  | data :: rest, stats, db =>
    match upsert_product data now db with
    | (.ok (_, true), db') =>
      bulk_upsert_loop now rest { stats with created := stats.created + 1 } db'
    | (.ok (_, false), db') =>
      bulk_upsert_loop now rest { stats with updated := stats.updated + 1 } db'
    | (.error _, db') =>
      bulk_upsert_loop now rest { stats with errors := stats.errors + 1 } db'

/-- `DatabaseManager.bulk_upsert_products` (database.py lines 315-351): each
record is upserted on the shared session inside its own `try`; a failure
bumps `errors` and `continue`s with the next record. -/
def bulk_upsert_products (products_data : List ProductData) (now : Nat) (db : DB) :
    BulkStats × DB :=
  bulk_upsert_loop now products_data
    { total := products_data.length, created := 0, updated := 0, errors := 0 } db

/-- The four counters `finish_crawl_session` copies out of the caller's stats
map (each read with `.get(key, 0)`). -/
structure CrawlStats where
  categories_found : Nat
  products_found : Nat
  products_created : Nat
  products_updated : Nat
deriving DecidableEq, Repr

def emptyStats : CrawlStats :=
  { categories_found := 0, products_found := 0, products_created := 0, products_updated := 0 }

/-- The fresh `CrawlSession()` row with the model defaults of models.py lines
89-101: `status='running'`, `finished_at=NULL`, zero counters. -/
def startSessionRow (now : Nat) (db : DB) : SessionRow :=
  { id := db.nextSessionId, started_at := now, finished_at := Option.none,
    status := "running", categories_found := 0, products_found := 0,
    products_updated := 0, products_created := 0, errors := Option.none }

/-- `DatabaseManager.start_crawl_session` (database.py lines 353-364): insert
a row with the model defaults and return it. -/
def start_crawl_session (now : Nat) (db : DB) : Nat × DB :=
  ((startSessionRow now db).id,
   { db with sessions := db.sessions ++ [startSessionRow now db],
             nextSessionId := db.nextSessionId + 1 })

/-- `DatabaseManager.finish_crawl_session` (database.py lines 366-391): load
the session by id; if present set `finished_at` and `status`, copy the four
counters when a stats map is given (`if stats:`), and store the error text
when it is truthy (`if errors:` — the empty string is skipped); a missing
session is a silent no-op, and the surrounding `try` swallows errors. -/
def finishRow (status : String) (stats : Option CrawlStats)
    (errors : Option String) (now : Nat) (s : SessionRow) : SessionRow :=
  { s with
    finished_at := some now
    status := status
    categories_found := match stats with
      | some st => st.categories_found
      | Option.none => s.categories_found
    products_found := match stats with
      | some st => st.products_found
      | Option.none => s.products_found
    products_created := match stats with
      | some st => st.products_created
      | Option.none => s.products_created
    products_updated := match stats with
      | some st => st.products_updated
      | Option.none => s.products_updated
    errors := match errors with
      | some e => if e = "" then s.errors else some e
      | Option.none => s.errors }

def finish_crawl_session (crawl_session_id : Nat) (status : String)
    (stats : Option CrawlStats) (errors : Option String) (now : Nat) (db : DB) : DB :=
  { db with sessions := db.sessions.map (fun s =>
      if s.id = crawl_session_id then finishRow status stats errors now s else s) }

/-- The outcome of the crawl sequence inside an orchestrator entry point's
`try` block: the database it leaves behind, the accumulated `self.stats`
counters, and the escaping exception text, if any. -/
structure CrawlOutcome where
  db : DB
  stats : CrawlStats
  err : Option String

/-- The session-bracketing skeleton shared verbatim by the three orchestrator
entry points (crawler.py lines 72-135, 137-216, 218-282): start a session;
run the crawl sequence; on success finish the session as `completed` with the
stats and return them; on an escaping exception finish it as `failed` with
the captured error text and re-raise.  The network-dependent crawl sequence
is the `body` parameter. -/
def run_crawl_entry (body : DB → CrawlOutcome) (now : Nat) (db : DB) :
    Except String CrawlStats × DB :=
  match (body (start_crawl_session now db).2).err with
  | Option.none =>
    (.ok (body (start_crawl_session now db).2).stats,
     finish_crawl_session (start_crawl_session now db).1 "completed"
       (some (body (start_crawl_session now db).2).stats) Option.none now
       (body (start_crawl_session now db).2).db)
  | some e =>
    (.error e,
     finish_crawl_session (start_crawl_session now db).1 "failed"
       (some (body (start_crawl_session now db).2).stats) (some e) now
       (body (start_crawl_session now db).2).db)

/-- `BestmuaCrawler.full_crawl` (crawler.py lines 72-135) with its crawl
sequence (discover categories, crawl categories, export) abstracted as
`body`. -/
def full_crawl (body : DB → CrawlOutcome) (now : Nat) (db : DB) :
    Except String CrawlStats × DB :=
  run_crawl_entry body now db

/-- `BestmuaCrawler.incremental_crawl` (crawler.py lines 137-216) with its
crawl sequence (re-fetch modified products, scan first pages for new slugs)
abstracted as `body`. -/
def incremental_crawl (body : DB → CrawlOutcome) (now : Nat) (db : DB) :
    Except String CrawlStats × DB :=
  run_crawl_entry body now db

/-- `BestmuaCrawler.crawl_category` (crawler.py lines 218-282) with its crawl
sequence abstracted as `body`; the `ValueError` raised for an unknown
category slug is one of the exceptions `body` may surface. -/
def crawl_category (body : DB → CrawlOutcome) (now : Nat) (db : DB) :
    Except String CrawlStats × DB :=
  run_crawl_entry body now db

/-- The terminal-session contract of an orchestrator entry point: for any
crawl sequence that does not itself touch the `crawl_sessions` table, the
session row created at the start ends with `status` `completed` or `failed`
and `finished_at` set; when the sequence raises, the run re-raises the same
error, the session is `failed`, and a nonempty error text is recorded. -/
def SessionTerminalSpec
    (entry : (DB → CrawlOutcome) → Nat → DB → Except String CrawlStats × DB) : Prop :=
  ∀ (body : DB → CrawlOutcome) (now : Nat) (db : DB),
    (∀ d, (body d).db.sessions = d.sessions) →
    ∃ s ∈ (entry body now db).2.sessions,
      s.id = db.nextSessionId ∧
      (s.status = "completed" ∨ s.status = "failed") ∧
      s.finished_at = some now ∧
      (∀ e, (body (start_crawl_session now db).2).err = some e →
        (entry body now db).1 = .error e ∧ s.status = "failed" ∧
        (e ≠ "" → s.errors = some e))

/-- A fresh sample payload for the upsert witnesses. -/
def sampleProduct : ProductData :=
  { name := "Son Kem Li", slug := "son-kem-li", url := "/san-pham/son-kem-li",
    description := Option.none, price := Option.none, original_price := Option.none,
    discount_percentage := Option.none, sku := Option.none, availability := Option.none,
    rating := Option.none, review_count := Option.none, image_url := Option.none,
    images := Option.none, ingredients := Option.none,
    usage_instructions := Option.none, category_name := Option.none,
    brand_name := Option.none, is_featured := Option.none,
    is_bestseller := Option.none, is_new := Option.none, is_sale := Option.none }

/-- The sample payload with a category reference: `products.category_id` is
`NOT NULL`, so a payload must resolve a category for its insert to commit. -/
def sampleProductWithCat : ProductData :=
  { sampleProduct with category_name := some "Beauty" }

/-- A product row with default column values, for concrete witnesses. -/
def baseProductRow (id : Nat) (name slug url : String) : ProductRow :=
  { id := id, name := name, slug := slug, url := url, description := "",
    price := Option.none, original_price := Option.none,
    discount_percentage := Option.none, sku := "", availability := "unknown",
    rating := Option.none, review_count := 0, image_url := "", images := "",
    ingredients := "", usage_instructions := "", category_id := Option.none,
    brand_id := Option.none, is_featured := false, is_bestseller := false,
    is_new := false, is_sale := false, created_at := 0, updated_at := 0 }

/-- A database holding two products, `a` at `/a` and `b` at `/b`. -/
def twoProductsDB : DB :=
  { emptyDB with
    products := [baseProductRow 1 "A" "a" "/a", baseProductRow 2 "B" "b" "/b"],
    nextProductId := 3 }

/-- A payload matching product `a` by slug while carrying product `b`'s url:
its update commit violates the unique constraint on `products.url`. -/
def collidingProduct : ProductData :=
  { sampleProduct with name := "A2", slug := "a", url := "/b" }

/-- A one-product row carrying a nonempty description, for the C7 frame
counterexample. -/
def frameRow : ProductRow :=
  { (baseProductRow 1 "P" "p" "/p") with description := "old description" }

/-- A one-product database holding `frameRow`. -/
def frameDB : DB :=
  { emptyDB with
    products := [frameRow],
    nextProductId := 2 }

/-- A payload matching `frameDB`'s product by slug, carrying an empty-string
description and a fresh url. -/
def framePayload : ProductData :=
  { sampleProduct with
    name := "P"
    slug := "p"
    url := "/p-new"
    description := some "" }

/-- A category row and database for the C7 frame witness. -/
def frameCatRow : CategoryRow :=
  { id := 1, name := "Makeup", slug := "makeup", url := "/makeup",
    parent_id := Option.none, description := "desc", created_at := 0, updated_at := 0 }

def frameCatDB : DB :=
  { emptyDB with categories := [frameCatRow], nextCategoryId := 2 }

/-- A payload matching `frameCatRow` by slug with an empty name (skipped by
truthiness) and a nonempty url (overwritten). -/
def frameCatPayload : CategoryData :=
  { name := "", slug := "makeup", url := "/makeup-2", description := "",
    parent_slug := "" }

/-! ## Exporter (exporter.py): per-category SQL emission -/

/-- The SQL single-quote character, written by code point. -/
def sqlQuote : String := String.singleton (Char.ofNat 39)

/-- `SQLExporter._escape_sql_string` (exporter.py lines 350-357): falsy
values render as a pair of quotes; otherwise single quotes are doubled. -/
def escape_sql_string (value : String) : String :=
  if value = "" then sqlQuote ++ sqlQuote
  else sqlQuote ++ value.replace sqlQuote (sqlQuote ++ sqlQuote) ++ sqlQuote

/-- SQLAlchemy's `category.parent` relationship: the stored row whose `id`
is this row's `parent_id`. -/
def parentOf (cats : List CategoryRow) (c : CategoryRow) : Option CategoryRow :=
  match c.parent_id with
  | some pid => cats.find? (fun p => p.id == pid)
  | Option.none => Option.none

/-- The `while current:` walk of `_generate_category_insert_sql`
(exporter.py lines 276-281): `categories_to_insert.insert(0, current)` puts
each parent in front of its child, so the chain reads root-first with the
exported category last.  The walk is fuelled with one step per stored row
plus one; an acyclic store's parent chain is never longer, and on a cyclic
store the Python loop would not terminate at all. -/
def categoriesChain (cats : List CategoryRow) :
    Option CategoryRow → Nat → List CategoryRow
  | _, 0 => []
  | Option.none, _ => []
  | some c, n + 1 => categoriesChain cats (parentOf cats c) n ++ [c]

def categoriesToInsert (cats : List CategoryRow) (category : CategoryRow) :
    List CategoryRow :=
  categoriesChain cats (some category) (cats.length + 1)

/-- One `INSERT OR REPLACE INTO categories ...` statement of
`_generate_category_insert_sql` (exporter.py lines 284-297).  The rendered
`parent_id` comes from the `cat.parent` relationship; datetimes are tick
counts, so `isoformat()` is their decimal rendering. -/
def category_insert_statement (cats : List CategoryRow) (cat : CategoryRow) : String :=
  "INSERT OR REPLACE INTO categories (id, name, slug, url, parent_id, description, created_at, updated_at) VALUES (\n    "
    ++ toString cat.id ++ ",\n    "
    ++ escape_sql_string cat.name ++ ",\n    "
    ++ escape_sql_string cat.slug ++ ",\n    "
    ++ escape_sql_string cat.url ++ ",\n    "
    ++ (match parentOf cats cat with
        | some p => toString p.id
        | Option.none => "NULL") ++ ",\n    "
    ++ escape_sql_string cat.description ++ ",\n    "
    ++ sqlQuote ++ toString cat.created_at ++ sqlQuote ++ ",\n    "
    ++ sqlQuote ++ toString cat.updated_at ++ sqlQuote ++ "\n);\n"

/-- `SQLExporter._generate_category_insert_sql` (exporter.py lines 272-299):
the statements are emitted in the order of `categories_to_insert`. -/
def generate_category_insert_sql (cats : List CategoryRow) (category : CategoryRow) :
    String :=
  String.join ((categoriesToInsert cats category).map (category_insert_statement cats))

/-! ## The remaining per-field normalizers (normalizer.py)

The stdlib collaborators `str()`, `html.unescape`, `json` are modelled on the
repertoire the pipeline feeds them, as noted on each definition. -/

/-- Python truthiness of the values `PyVal` models. -/
def pyTruthy : PyVal → Bool
  | .none => false
  | .bool b => b
  | .int n => decide (n ≠ 0)
  | .float q => decide (q ≠ 0)
  | .str s => decide (s ≠ "")
  | .list l => !l.isEmpty

/-- Left-pad a digit string with zeros to the given width. -/
def padZeros (s : String) (width : Nat) : String :=
  String.mk (List.replicate (width - s.length) '0') ++ s

/-- `str()` of a Python float, modelled for exact decimals: an integral value
renders with a trailing `.0`, a terminating fraction with its shortest
decimal expansion (every actual Python float is dyadic, hence terminating);
other rationals — unreachable from floats — fall back to `num/den`. -/
def floatRepr (q : ℚ) : String :=
  if q.den = 1 then toString q.num ++ ".0"
  else
    match (List.range 64).find? (fun k => decide (q.den ∣ 10 ^ (k + 1))) with
    | some k =>
      let scaled : ℤ := q.num * ((10 ^ (k + 1) : ℕ) / q.den)
      let sign : String := if q.num < 0 then "-" else ""
      let a := scaled.natAbs
      sign ++ toString (a / 10 ^ (k + 1)) ++ "." ++
        padZeros (toString (a % 10 ^ (k + 1))) (k + 1)
    | Option.none => toString q.num ++ "/" ++ toString q.den

/-- Python `repr`, used by `str()` on list elements.  String elements are
quoted with single quotes (escaping inside them is not modelled). -/
def pyRepr : PyVal → String
  | .none => "None"
  | .bool true => "True"
  | .bool false => "False"
  | .int n => toString n
  | .float q => floatRepr q
  | .str s => sqlQuote ++ s ++ sqlQuote
  | .list l => "[" ++ String.intercalate ", " (l.attach.map (fun x => pyRepr x.1)) ++ "]"
decreasing_by
  have hm := List.sizeOf_lt_of_mem x.2
  simp_wf
  omega

/-- Python `str()` on the values `PyVal` models. -/
def pyStr : PyVal → String
  | .str s => s
  | .list l => pyRepr (.list l)
  | v => pyRepr v

/-- The regex sub `<[^>]+>` → `''`: drop every well-delimited nonempty tag,
leaving unmatched `<` in place (leftmost-match semantics). -/
def stripTags : List Char → List Char
  | [] => []
  | c :: rest =>
    if c = '<' then
      match rest.takeWhile (fun d => !(d = '>')), h2 : rest.dropWhile (fun d => !(d = '>')) with
      | _ :: _, _ :: tail => stripTags tail
      | _, _ => c :: stripTags rest
    else c :: stripTags rest
termination_by l => l.length
decreasing_by
  · have hle := List.Sublist.length_le (List.dropWhile_sublist (l := t) (fun d => !(d = '>')))
    rw [h2] at hle
    simp at hle ⊢
    omega
  · simp
  · simp

/-- `html.unescape`, modelled on the five core entities (`&amp;` decoded
last, so doubly escaped text behaves as in the stdlib). -/
def htmlUnescape (s : String) : String :=
  ((((s.replace "&lt;" "<").replace "&gt;" ">").replace "&quot;" "\"").replace
      "&#39;" sqlQuote).replace "&amp;" "&"

/-- The curly-quote normalization of `normalize_text`: typographic double
and single quotes become ASCII ones. -/
def asciiQuotes (c : Char) : Char :=
  if c = Char.ofNat 8220 || c = Char.ofNat 8221 then Char.ofNat 34
  else if c = Char.ofNat 8216 || c = Char.ofNat 8217 then Char.ofNat 39
  else c

/-- `DataNormalizer.normalize_text` (normalizer.py lines 130-157): falsy
input yields `''`; otherwise strip, collapse whitespace runs, drop HTML tags,
decode entities, normalize quotes, strip again.  The `try` body is total, so
the `except ''` default is dead. -/
def normalize_text (text : PyVal) : String :=
  if !pyTruthy text then ""
  else
    let t0 := stripChars isSpaceChar (pyStr text).toList
    let t1 := collapseRunsWith isSpaceChar ' ' t0
    let t2 := stripTags t1
    let t3 := (htmlUnescape (String.mk t2)).toList
    let t4 := t3.map asciiQuotes
    String.mk (stripChars isSpaceChar t4)

/-- `DataNormalizer.normalize_slug` on its loosely typed argument: falsy
input short-circuits to `''`, everything else is rendered with `str()` and
sent through the string pipeline. -/
def normalize_slug_val (slug : PyVal) : String :=
  if !pyTruthy slug then ""
  else normalize_slug (pyStr slug)

/-- `DataNormalizer.normalize_url` (normalizer.py lines 187-203). -/
def normalize_url (url : PyVal) : String :=
  if !pyTruthy url then ""
  else
    let s := String.mk (stripChars isSpaceChar (pyStr url).toList)
    if s ≠ "" &&
        !("http://".isPrefixOf s || "https://".isPrefixOf s || "/".isPrefixOf s) then
      "/" ++ s
    else s

/-- Python `int()` on a float: truncation toward zero. -/
def pyTrunc (q : ℚ) : ℤ :=
  if 0 ≤ q then ⌊q⌋ else -⌊-q⌋

/-- `DataNormalizer.normalize_percentage` (normalizer.py lines 235-259):
numbers (booleans included) must lie in `[0, 100]`, strings lose `%` and
surrounding spaces before the `float` attempt; out-of-range and unparsable
input is `None`. -/
def normalize_percentage (percentage : PyVal) : Option ℚ :=
  match percentage with
  | .none => Option.none
  | .bool b => some (if b then 1 else 0)
  | .int n => if 0 ≤ n ∧ n ≤ 100 then some (n : ℚ) else Option.none
  | .float q => if 0 ≤ q ∧ q ≤ 100 then some q else Option.none
  | .str s =>
    if s = "" then Option.none
    else
      match pyFloat (String.mk (stripChars isSpaceChar
          (s.toList.filter (fun c => !(c = '%'))))) with
      | some q => if 0 ≤ q ∧ q ≤ 100 then some q else Option.none
      | Option.none => Option.none
  | .list _ => Option.none

/-- `DataNormalizer.normalize_rating` (normalizer.py lines 261-283): as the
percentage normalizer with range `[0, 5]` and no `%` stripping. -/
def normalize_rating (rating : PyVal) : Option ℚ :=
  match rating with
  | .none => Option.none
  | .bool b => some (if b then 1 else 0)
  | .int n => if 0 ≤ n ∧ n ≤ 5 then some (n : ℚ) else Option.none
  | .float q => if 0 ≤ q ∧ q ≤ 5 then some q else Option.none
  | .str s =>
    if s = "" then Option.none
    else
      match pyFloat (String.mk (stripChars isSpaceChar s.toList)) with
      | some q => if 0 ≤ q ∧ q ≤ 5 then some q else Option.none
      | Option.none => Option.none
  | .list _ => Option.none

/-- `DataNormalizer.normalize_integer` (normalizer.py lines 285-305):
integers (booleans included) are clamped below at 0; floats and strings go
through `int(float(str(value).replace(',', '')))`, failures yield 0. -/
def normalize_integer (value : PyVal) : ℤ :=
  match value with
  | .none => 0
  | .bool b => if b then 1 else 0
  | .int n => max 0 n
  | .float q =>
    match pyFloat (String.mk ((floatRepr q).toList.filter (fun c => !(c = ',')))) with
    | some v => max 0 (pyTrunc v)
    | Option.none => 0
  | .str s =>
    if s = "" then 0
    else
      match pyFloat (String.mk (s.toList.filter (fun c => !(c = ',')))) with
      | some v => max 0 (pyTrunc v)
      | Option.none => 0
  | .list _ => 0

/-- `DataNormalizer.normalize_boolean` (normalizer.py lines 307-318). -/
def normalize_boolean (value : PyVal) : Bool :=
  match value with
  | .bool b => b
  | .str s =>
    let ls := String.mk (s.toList.map pyLowerChar)
    ls = "true" || ls = "1" || ls = "yes" || ls = "on" || ls = "active"
  | .int n => decide (n ≠ 0)
  | .float q => decide (q ≠ 0)
  | _ => false

/-- ASCII uppercasing for `str.upper()`; anything the model leaves unchanged
is erased by the SKU filter right after. -/
def pyUpperChar (c : Char) : Char :=
  if c.isLower then Char.ofNat (c.toNat - 32) else c

/-- `DataNormalizer.normalize_sku` (normalizer.py lines 320-335). -/
def normalize_sku (sku : PyVal) : String :=
  if !pyTruthy sku then ""
  else
    let s := (stripChars isSpaceChar (pyStr sku).toList).map pyUpperChar
    String.mk (s.filter (fun c => c.isUpper || c.isDigit || c = '-' || c = '_'))

/-- The `availability_map` of `normalize_availability` in source order. -/
def availabilityMap : List (String × String) :=
  [("in_stock", "in_stock"), ("instock", "in_stock"), ("available", "in_stock"),
   ("có sẵn", "in_stock"), ("còn hàng", "in_stock"),
   ("out_of_stock", "out_of_stock"), ("outofstock", "out_of_stock"),
   ("unavailable", "out_of_stock"), ("hết hàng", "out_of_stock"),
   ("ngừng bán", "out_of_stock"),
   ("pre_order", "pre_order"), ("preorder", "pre_order"),
   ("đặt trước", "pre_order")]

/-- Python `key in text` substring containment. -/
def containsSub (needle hay : String) : Bool :=
  decide (needle.toList <:+: hay.toList)

/-- `DataNormalizer.normalize_availability` (normalizer.py lines 337-375):
exact map lookup first, then the first key contained in the text, else
`'unknown'`. -/
def normalize_availability (availability : PyVal) : String :=
  if !pyTruthy availability then "unknown"
  else
    let s := String.mk ((stripChars isSpaceChar (pyStr availability).toList).map pyLowerChar)
    match availabilityMap.find? (fun kv => kv.1 == s) with
    | some kv => kv.2
    | Option.none =>
      match availabilityMap.find? (fun kv => containsSub kv.1 s) with
      | some kv => kv.2
      | Option.none => "unknown"

/-! ### A model of the `json` stdlib collaborator

`json.loads` is modelled for arrays of plain (escape-free) strings — the only
JSON shape `normalize_images` distinguishes; every other document maps to the
parse-failure path, whose handling coincides with the source's non-list
branch.  `json.dumps` is modelled for lists of strings without
characters that need escaping. -/

def skipWs (l : List Char) : List Char := l.dropWhile isSpaceChar

/-- Scan a JSON string body after its opening quote; no escapes. -/
def jsonStringBody : List Char → Option (List Char × List Char)
  | [] => Option.none
  | c :: rest =>
    if c = '"' then some ([], rest)
    else if c = '\\' then Option.none
    else
      match jsonStringBody rest with
      | some (s, r) => some (c :: s, r)
      | Option.none => Option.none

/-- Parse comma-separated JSON strings up to the closing bracket. -/
def jsonElems : Nat → List Char → Option (List PyVal × List Char)
  | 0, _ => Option.none
  | fuel + 1, l =>
    match skipWs l with
    | '"' :: rest =>
      match jsonStringBody rest with
      | some (s, r) =>
        match skipWs r with
        | ',' :: r2 =>
          match jsonElems fuel r2 with
          | some (vs, r3) => some (.str (String.mk s) :: vs, r3)
          | Option.none => Option.none
        | ']' :: r2 => some ([.str (String.mk s)], r2)
        | _ => Option.none
      | Option.none => Option.none
    | _ => Option.none

def jsonLoads (s : String) : Option PyVal :=
  match skipWs s.toList with
  | '[' :: rest =>
    match skipWs rest with
    | ']' :: r2 => if (skipWs r2).isEmpty then some (.list []) else Option.none
    | _ =>
      match jsonElems (rest.length + 1) rest with
      | some (vs, r) => if (skipWs r).isEmpty then some (.list vs) else Option.none
      | Option.none => Option.none
  | _ => Option.none

def jsonDumps (xs : List String) : String :=
  "[" ++ String.intercalate ", " (xs.map (fun s => "\"" ++ s ++ "\"")) ++ "]"

/-- `DataNormalizer.normalize_images` (normalizer.py lines 377-412): a JSON
array keeps its truthy entries as normalized URLs; any other string — JSON or
not — is treated as a single URL (the source's two branches are identical);
lists are normalized elementwise; other values are rendered with `str()`
first. -/
def normalize_images (images : PyVal) : String :=
  if !pyTruthy images then ""
  else
    match images with
    | .str s =>
      match jsonLoads s with
      | some (.list l) => jsonDumps ((l.filter pyTruthy).map normalize_url)
      | _ =>
        let u := normalize_url (.str s)
        jsonDumps (if u ≠ "" then [u] else [])
    | .list l => jsonDumps ((l.filter pyTruthy).map normalize_url)
    | v =>
      let u := normalize_url (.str (pyStr v))
      jsonDumps (if u ≠ "" then [u] else [])

/-- A raw scraped product dictionary: each known key is either absent or
holds a loosely typed value (`raw_product.get(key, default)` supplies the
default). -/
structure RawProduct where
  name : Option PyVal
  slug : Option PyVal
  url : Option PyVal
  description : Option PyVal
  price : Option PyVal
  original_price : Option PyVal
  discount_percentage : Option PyVal
  sku : Option PyVal
  availability : Option PyVal
  rating : Option PyVal
  review_count : Option PyVal
  image_url : Option PyVal
  images : Option PyVal
  ingredients : Option PyVal
  usage_instructions : Option PyVal
  brand_name : Option PyVal
  is_featured : Option PyVal
  is_bestseller : Option PyVal
  is_new : Option PyVal
  is_sale : Option PyVal
  category_name : Option PyVal

/-- The dictionary `normalize_product` builds. -/
structure NormalizedProduct where
  name : String
  slug : String
  url : String
  description : String
  price : Option ℚ
  original_price : Option ℚ
  discount_percentage : Option ℚ
  sku : String
  availability : String
  rating : Option ℚ
  review_count : ℤ
  image_url : String
  images : String
  ingredients : String
  usage_instructions : String
  brand_name : String
  is_featured : Bool
  is_bestseller : Bool
  is_new : Bool
  is_sale : Bool
  category_name : String

/-- The `try` body of `DataNormalizer.normalize_product` (normalizer.py lines
28-72) in the `Except` monad.  Every per-field normalizer is total (each
catches its own errors internally), so the body never reaches the `except`
clause; the `Except` type records where a raised exception would surface. -/
def normalizeProductE (raw : RawProduct) : Except String NormalizedProduct :=
  Except.ok
    { name := normalize_text (raw.name.getD (.str ""))
      slug := normalize_slug_val (raw.slug.getD (.str ""))
      url := normalize_url (raw.url.getD (.str ""))
      description := normalize_text (raw.description.getD (.str ""))
      price := normalize_price (raw.price.getD .none)
      original_price := normalize_price (raw.original_price.getD .none)
      discount_percentage := normalize_percentage (raw.discount_percentage.getD .none)
      sku := normalize_sku (raw.sku.getD (.str ""))
      availability := normalize_availability (raw.availability.getD (.str "unknown"))
      rating := normalize_rating (raw.rating.getD .none)
      review_count := normalize_integer (raw.review_count.getD (.int 0))
      image_url := normalize_url (raw.image_url.getD (.str ""))
      images := normalize_images (raw.images.getD .none)
      ingredients := normalize_text (raw.ingredients.getD (.str ""))
      usage_instructions := normalize_text (raw.usage_instructions.getD (.str ""))
      brand_name := normalize_text (raw.brand_name.getD (.str ""))
      is_featured := normalize_boolean (raw.is_featured.getD (.bool false))
      is_bestseller := normalize_boolean (raw.is_bestseller.getD (.bool false))
      is_new := normalize_boolean (raw.is_new.getD (.bool false))
      is_sale := normalize_boolean (raw.is_sale.getD (.bool false))
      category_name := normalize_text (raw.category_name.getD (.str "")) }

/-- `DataNormalizer.normalize_product` (normalizer.py lines 18-77): the
result of the `try` body, or — should it ever raise — the empty dictionary,
modelled as `Option.none`. -/
def normalize_product (raw : RawProduct) : Option NormalizedProduct :=
  match normalizeProductE raw with
  | .ok d => some d
  | .error _ => Option.none

/-! ## END OF DEFINITIONS -/

/-! ## Lemmas: list plumbing for `stripChars` and `collapseRunsWith` -/

theorem mem_stripChars {p : Char → Bool} {l : List Char} {x : Char}
    (h : x ∈ stripChars p l) : x ∈ l := by
  unfold stripChars at h
  rw [List.mem_reverse] at h
  have h1 := (List.dropWhile_suffix p).subset h
  rw [List.mem_reverse] at h1
  exact (List.dropWhile_suffix p).subset h1

theorem stripChars_within (p : Char → Bool) (l : List Char) :
    stripChars p l <:+: l := by
  unfold stripChars
  have h1 : ((l.dropWhile p).reverse.dropWhile p).reverse <+: l.dropWhile p := by
    rw [← List.reverse_suffix, List.reverse_reverse]
    exact List.dropWhile_suffix p
  exact h1.isInfix.trans (List.dropWhile_suffix p).isInfix

theorem dropWhile_head_eq_self {p : Char → Bool} {l : List Char}
    (h : ∀ x, l.head? = some x → p x = false) : l.dropWhile p = l := by
  cases l with
  | nil => rfl
  | cons c t => simp [List.dropWhile_cons, h c rfl]

theorem dropWhile_head_false {p : Char → Bool} :
    ∀ {l : List Char} {x : Char}, (l.dropWhile p).head? = some x → p x = false := by
  intro l
  induction l with
  | nil => intro x h; simp [List.dropWhile] at h
  | cons c t ih =>
    intro x h
    rw [List.dropWhile_cons] at h
    by_cases hc : p c
    · rw [if_pos hc] at h; exact ih h
    · rw [if_neg hc] at h
      simp only [List.head?_cons, Option.some.injEq] at h
      subst h
      exact eq_false_of_ne_true hc

theorem stripChars_eq_self {p : Char → Bool} {l : List Char}
    (h1 : ∀ x, l.head? = some x → p x = false)
    (h2 : ∀ x, l.getLast? = some x → p x = false) : stripChars p l = l := by
  unfold stripChars
  rw [dropWhile_head_eq_self h1]
  have hr : l.reverse.dropWhile p = l.reverse := by
    apply dropWhile_head_eq_self
    intro x hx
    rw [List.head?_reverse] at hx
    exact h2 x hx
  rw [hr, List.reverse_reverse]

theorem stripChars_eq_self_of_all {p : Char → Bool} {l : List Char}
    (h : ∀ x ∈ l, p x = false) : stripChars p l = l := by
  apply stripChars_eq_self
  · intro x hx; exact h x (List.mem_of_mem_head? hx)
  · intro x hx
    apply h
    rw [← List.head?_reverse] at hx
    exact (List.mem_reverse).mp (List.mem_of_mem_head? hx)

theorem stripChars_head_false {p : Char → Bool} {l : List Char} {x : Char}
    (h : (stripChars p l).head? = some x) : p x = false := by
  unfold stripChars at h
  rw [List.head?_reverse] at h
  set M := (l.dropWhile p).reverse.dropWhile p with hM
  have hsuf : M <:+ (l.dropWhile p).reverse := List.dropWhile_suffix p
  obtain ⟨t, ht⟩ := hsuf
  have hne : M ≠ [] := by
    intro hnil
    rw [hnil] at h
    simp at h
  have : (l.dropWhile p).reverse.getLast? = some x := by
    rw [← ht, List.getLast?_append_of_ne_nil t hne, h]
  rw [List.getLast?_reverse] at this
  exact dropWhile_head_false this

theorem stripChars_getLast_false {p : Char → Bool} {l : List Char} {x : Char}
    (h : (stripChars p l).getLast? = some x) : p x = false := by
  unfold stripChars at h
  rw [List.getLast?_reverse] at h
  exact dropWhile_head_false h

theorem collapseRunsWith_cons (p : Char → Bool) (rep c : Char) (t : List Char) :
    collapseRunsWith p rep (c :: t) = collapseStep p rep c (collapseRunsWith p rep t) :=
  rfl

theorem collapseStep_acc_nil (p : Char → Bool) (rep c : Char) :
    collapseStep p rep c [] = if p c then [rep] else [c] := by
  unfold collapseStep
  by_cases hc : p c <;> simp [hc]

theorem collapseStep_acc_cons (p : Char → Bool) (rep c a : Char) (u : List Char) :
    collapseStep p rep c (a :: u) =
      if p c then (if a = rep then a :: u else rep :: a :: u) else c :: a :: u := by
  unfold collapseStep
  by_cases hc : p c <;> simp [hc]

theorem mem_collapseRunsWith {p : Char → Bool} {rep : Char} :
    ∀ {l : List Char} {x : Char}, x ∈ collapseRunsWith p rep l →
      x = rep ∨ (x ∈ l ∧ p x = false) := by
  intro l
  induction l with
  | nil => intro x h; simp [collapseRunsWith] at h
  | cons c t ih =>
    intro x h
    rw [collapseRunsWith_cons] at h
    have hlift : x ∈ collapseRunsWith p rep t → x = rep ∨ (x ∈ c :: t ∧ p x = false) := by
      intro hx
      rcases ih hx with h' | h'
      · left; exact h'
      · right; exact ⟨List.mem_cons_of_mem c h'.1, h'.2⟩
    cases hacc : collapseRunsWith p rep t with
    | nil =>
      rw [hacc, collapseStep_acc_nil] at h
      by_cases hc : p c
      · rw [if_pos hc] at h; left; exact (List.mem_singleton).mp h
      · rw [if_neg hc] at h
        right
        exact ⟨(List.mem_singleton).mp h ▸ List.mem_cons_self c t,
          (List.mem_singleton).mp h ▸ eq_false_of_ne_true hc⟩
    | cons a u =>
      rw [hacc, collapseStep_acc_cons] at h
      by_cases hc : p c
      · rw [if_pos hc] at h
        by_cases ha : a = rep
        · rw [if_pos ha] at h
          exact hlift (hacc ▸ h)
        · rw [if_neg ha] at h
          rcases List.mem_cons.mp h with h' | h'
          · left; exact h'
          · exact hlift (hacc ▸ h')
      · rw [if_neg hc] at h
        rcases List.mem_cons.mp h with h' | h'
        · subst h'; right; exact ⟨List.mem_cons_self x t, eq_false_of_ne_true hc⟩
        · exact hlift (hacc ▸ h')

theorem chain'_collapseRunsWith (p : Char → Bool) (rep : Char) (hrep : p rep = true) :
    ∀ l : List Char,
      List.Chain' (fun a b => ¬(p a = true ∧ p b = true)) (collapseRunsWith p rep l) := by
  intro l
  induction l with
  | nil => simp [collapseRunsWith]
  | cons c t ih =>
    rw [collapseRunsWith_cons]
    cases hacc : collapseRunsWith p rep t with
    | nil =>
      rw [collapseStep_acc_nil]
      by_cases hc : p c
      · rw [if_pos hc]; simp
      · rw [if_neg hc]; simp
    | cons a u =>
      rw [collapseStep_acc_cons]
      by_cases hc : p c
      · rw [if_pos hc]
        by_cases ha : a = rep
        · rw [if_pos ha]; rw [hacc] at ih; exact ih
        · rw [if_neg ha]
          rw [List.chain'_cons']
          constructor
          · intro y hy
            simp only [List.head?_cons, Option.mem_def, Option.some.injEq] at hy
            subst hy
            have haM : a ∈ collapseRunsWith p rep t := by
              rw [hacc]; exact List.mem_cons_self a u
            rcases mem_collapseRunsWith haM with h' | h'
            · exact absurd h' ha
            · intro hcon; rw [h'.2] at hcon; exact Bool.false_ne_true hcon.2
          · rw [hacc] at ih; exact ih
      · rw [if_neg hc]
        rw [List.chain'_cons']
        refine ⟨?_, hacc ▸ ih⟩
        intro y hy
        intro hcon
        exact hc hcon.1

theorem collapseRunsWith_eq_self {p : Char → Bool} {rep : Char} (hrep : p rep = true) :
    ∀ {l : List Char},
      (∀ c ∈ l, p c = true → c = rep) →
      List.Chain' (fun a b => ¬(p a = true ∧ p b = true)) l →
      collapseRunsWith p rep l = l := by
  intro l
  induction l with
  | nil => intro _ _; rfl
  | cons c t ih =>
    intro hmem hch
    rw [collapseRunsWith_cons]
    have hih : collapseRunsWith p rep t = t := by
      apply ih
      · intro d hd hpd; exact hmem d (List.mem_cons_of_mem c hd) hpd
      · exact hch.tail
    rw [hih]
    by_cases hc : p c
    · have hcrep : c = rep := hmem c (List.mem_cons_self c t) hc
      cases t with
      | nil => rw [collapseStep_acc_nil, if_pos hc, hcrep]
      | cons d u =>
        have hd : ¬(p c = true ∧ p d = true) :=
          (List.chain'_cons.mp hch).1
        have hpd : p d = false := by
          by_cases h' : p d
          · exact absurd ⟨hc, h'⟩ hd
          · exact eq_false_of_ne_true h'
        have hdrep : d ≠ rep := by
          intro h'; rw [h', hrep] at hpd; cases hpd
        rw [collapseStep_acc_cons, if_pos hc, if_neg hdrep, hcrep]
    · cases t with
      | nil => rw [collapseStep_acc_nil, if_neg hc]
      | cons d u => rw [collapseStep_acc_cons, if_neg hc]

/-! ## Facts about the lowercase and transliteration tables -/

theorem lower_value_not_lowerKey :
    ∀ p ∈ lowerPairs, ∀ q ∈ lowerPairs, q.1 ≠ p.2 := by decide

theorem vn_reachable_value_free :
    ∀ p ∈ vnPairs, (∀ q ∈ lowerPairs, q.1 ≠ p.1) →
      (∀ q ∈ lowerPairs, q.1 ≠ p.2) ∧ (∀ q ∈ vnPairs, q.1 ≠ p.2) := by decide

theorem dash_not_key :
    (∀ q ∈ lowerPairs, q.1 ≠ '-') ∧ (∀ q ∈ vnPairs, q.1 ≠ '-') := by decide

theorem pyLowerChar_not_lowerKey (c : Char) :
    ∀ q ∈ lowerPairs, q.1 ≠ pyLowerChar c := by
  unfold pyLowerChar
  cases hf : lowerPairs.find? (fun p => p.1 == c) with
  | some p =>
    intro q hq
    exact lower_value_not_lowerKey p (List.mem_of_find?_eq_some hf) q hq
  | none =>
    intro q hq
    have h := List.find?_eq_none.mp hf q hq
    simpa using h

theorem comp_char_free (c : Char) :
    (∀ q ∈ lowerPairs, q.1 ≠ vnChar (pyLowerChar c)) ∧
    (∀ q ∈ vnPairs, q.1 ≠ vnChar (pyLowerChar c)) := by
  have hy := pyLowerChar_not_lowerKey c
  unfold vnChar
  cases hf : vnPairs.find? (fun p => p.1 == pyLowerChar c) with
  | some p =>
    have hp : p ∈ vnPairs := List.mem_of_find?_eq_some hf
    have hpy : p.1 = pyLowerChar c := by
      have h := List.find?_some hf; simpa using h
    have hkey : ∀ q ∈ lowerPairs, q.1 ≠ p.1 := by rw [hpy]; exact hy
    exact vn_reachable_value_free p hp hkey
  | none =>
    refine ⟨hy, ?_⟩
    intro q hq
    have h := List.find?_eq_none.mp hf q hq
    simpa using h

theorem pyLowerChar_fixed {x : Char} (h : ∀ q ∈ lowerPairs, q.1 ≠ x) :
    pyLowerChar x = x := by
  unfold pyLowerChar
  have hf : lowerPairs.find? (fun p => p.1 == x) = none := by
    rw [List.find?_eq_none]
    intro q hq
    simpa using h q hq
  rw [hf]

theorem vnChar_fixed {x : Char} (h : ∀ q ∈ vnPairs, q.1 ≠ x) :
    vnChar x = x := by
  unfold vnChar
  have hf : vnPairs.find? (fun p => p.1 == x) = none := by
    rw [List.find?_eq_none]
    intro q hq
    simpa using h q hq
  rw [hf]

/-! ## Character-level invariants of the `normalize_slug` output -/

theorem slugCore_char_props {l : List Char} {x : Char} (h : x ∈ slugCore l) :
    (∀ q ∈ lowerPairs, q.1 ≠ x) ∧ (∀ q ∈ vnPairs, q.1 ≠ x) ∧
    isSpaceChar x = false ∧ keepChar x = true ∧ isSlashSpace x = false := by
  unfold slugCore at h
  have h5 := mem_stripChars h
  rcases mem_collapseRunsWith h5 with hdash | ⟨h4, hnd⟩
  · subst hdash
    exact ⟨dash_not_key.1, dash_not_key.2, by decide, by decide, by decide⟩
  · have hkeep : keepChar x = true := (List.mem_filter.mp h4).2
    have h3 : x ∈ List.map vnChar
        (stripChars isSlashSpace (List.map pyLowerChar (stripChars isSpaceChar l))) :=
      (List.mem_filter.mp h4).1
    obtain ⟨z, hz, hzx⟩ := List.mem_map.mp h3
    obtain ⟨y, hy, hyz⟩ := List.mem_map.mp (mem_stripChars hz)
    have himg : x = vnChar (pyLowerChar y) := by rw [← hzx, ← hyz]
    have hfree := comp_char_free y
    have hspace : isSpaceChar x = false := by
      unfold isDashSpace at hnd
      exact (Bool.or_eq_false_iff.mp hnd).2
    refine ⟨himg ▸ hfree.1, himg ▸ hfree.2, hspace, hkeep, ?_⟩
    by_cases hsl : x = '/'
    · rw [hsl] at hkeep
      exact absurd hkeep (by decide)
    · by_cases hsp : x = ' '
      · rw [hsp] at hspace
        exact absurd hspace (by decide)
      · unfold isSlashSpace
        simp [hsl, hsp]

theorem slugCore_chain (l : List Char) :
    List.Chain' (fun a b => ¬(isDashSpace a = true ∧ isDashSpace b = true))
      (slugCore l) := by
  unfold slugCore
  exact List.Chain'.infix (chain'_collapseRunsWith isDashSpace '-' (by decide) _)
    (stripChars_within _ _)

theorem slugCore_head_not_dash {l : List Char} {x : Char}
    (h : (slugCore l).head? = some x) : ¬ x = '-' := by
  unfold slugCore at h
  have := stripChars_head_false h
  simpa using this

theorem slugCore_getLast_not_dash {l : List Char} {x : Char}
    (h : (slugCore l).getLast? = some x) : ¬ x = '-' := by
  unfold slugCore at h
  have := stripChars_getLast_false h
  simpa using this

theorem slugCore_idem (l : List Char) : slugCore (slugCore l) = slugCore l := by
  have hprops := fun x (hx : x ∈ slugCore l) => slugCore_char_props hx
  show stripChars (fun c => c = '-')
      (collapseRunsWith isDashSpace '-'
        (List.filter keepChar
          (List.map vnChar
            (stripChars isSlashSpace
              (List.map pyLowerChar (stripChars isSpaceChar (slugCore l))))))) =
    slugCore l
  rw [stripChars_eq_self_of_all (fun x hx => (hprops x hx).2.2.1)]
  rw [show List.map pyLowerChar (slugCore l) = List.map id (slugCore l) from
    List.map_congr_left (fun a ha => pyLowerChar_fixed (hprops a ha).1), List.map_id]
  rw [stripChars_eq_self_of_all (fun x hx => (hprops x hx).2.2.2.2)]
  rw [show List.map vnChar (slugCore l) = List.map id (slugCore l) from
    List.map_congr_left (fun a ha => vnChar_fixed (hprops a ha).2.1), List.map_id]
  rw [List.filter_eq_self.mpr (fun a ha => (hprops a ha).2.2.2.1)]
  rw [collapseRunsWith_eq_self (by decide)
    (fun c hc hpc => by
      unfold isDashSpace at hpc
      rcases Bool.or_eq_true_iff.mp hpc with h' | h'
      · simpa using h'
      · rw [(hprops c hc).2.2.1] at h'
        cases h')
    (slugCore_chain l)]
  exact stripChars_eq_self
    (fun x hx => by simpa using slugCore_head_not_dash hx)
    (fun x hx => by simpa using slugCore_getLast_not_dash hx)

theorem normalize_slug_eq_of_ne {s : String} (hs : s ≠ "") :
    normalize_slug s =
      (if (slugCore s.toList).isEmpty then "unknown" else String.mk (slugCore s.toList)) := by
  unfold normalize_slug
  rw [if_neg hs]

/-! ## Claim theorems -/

/-- C4: `normalize_slug` is idempotent: for every string input `x`,
`normalize_slug (normalize_slug x) = normalize_slug x`. -/
theorem normalize_slug_idempotent (s : String) :
    normalize_slug (normalize_slug s) = normalize_slug s := by
  by_cases hs : s = ""
  · subst hs
    have h0 : normalize_slug "" = "" := by
      unfold normalize_slug
      rw [if_pos rfl]
    rw [h0]
    exact h0
  · rw [normalize_slug_eq_of_ne hs]
    by_cases he : (slugCore s.toList).isEmpty
    · rw [if_pos he]
      decide
    · rw [if_neg he]
      have hne : String.mk (slugCore s.toList) ≠ "" := by
        intro hcon
        apply he
        have := congrArg String.data hcon
        simp only at this
        rw [List.isEmpty_iff]
        exact this
      rw [normalize_slug_eq_of_ne hne]
      have htl : (String.mk (slugCore s.toList)).toList = slugCore s.toList := rfl
      rw [htl, slugCore_idem, if_neg he]

/-- C5 (failing part): on empty input the code returns the empty string,
not the literal `"unknown"` that the claim (and the repo's own
`test_normalize_slug`) expects; nonempty input with no kept characters does
yield `"unknown"`. -/
theorem normalize_slug_empty_input :
    normalize_slug "" = "" ∧ normalize_slug "" ≠ "unknown" ∧
      normalize_slug "!!!" = "unknown" := by
  refine ⟨rfl, ?_, by decide⟩
  intro h
  exact absurd h (by decide)

/-- C3: behavior of `normalize_price` on the claimed inputs.  The
`"299,000đ"` example, the negative-input rule and the non-numeric rule hold,
but `"450.000 VND"` parses to `450.0` (the cleaned text `"450.000"` is read by
`float` with `.` as a decimal point), not the `450000.0` the claim and the
repo's own tests (`test_normalizer.py` line 152, `test_detail_parser.py`
line 123, `test_list_parser.py` line 104) expect. -/
theorem normalize_price_behavior :
    normalize_price (.str "299,000đ") = some 299000 ∧
    normalize_price (.str "450.000 VND") = some 450 ∧
    (some (450 : ℚ) ≠ some (450000 : ℚ)) ∧
    normalize_price (.str "invalid") = Option.none ∧
    (∀ q : ℚ, q < 0 → normalize_price (.float q) = Option.none) ∧
    (∀ n : ℤ, n < 0 → normalize_price (.int n) = Option.none) := by
  refine ⟨by decide, by decide, by decide, by decide, ?_, ?_⟩
  · intro q hq
    simp [normalize_price, not_le.mpr hq]
  · intro n hn
    simp [normalize_price, not_le.mpr hn]

/-- Witness for C3: the negative-input clauses applied at `-100`. -/
theorem normalize_price_behavior_witness :
    normalize_price (.float (-100)) = Option.none ∧
    normalize_price (.int (-100)) = Option.none :=
  ⟨normalize_price_behavior.2.2.2.2.1 (-100) (by norm_num),
   normalize_price_behavior.2.2.2.2.2 (-100) (by norm_num)⟩

theorem discount_example_value :
    pyRound2 (((399000 : ℚ) - 299000) / 399000 * 100) = 2506/100 := by
  have h1 : ((399000 : ℚ) - 299000) / 399000 * 100 = 10000/399 := by norm_num
  rw [h1]
  unfold pyRound2 roundHalfEven
  have h2 : (100 : ℚ) * (10000/399) = 1000000/399 := by norm_num
  rw [h2]
  have hf : ⌊(1000000/399 : ℚ)⌋ = 2506 := by
    rw [Int.floor_eq_iff]
    constructor <;> norm_num
  rw [hf]
  rw [if_pos (by norm_num)]
  norm_num

/-- C6 counterexample: for price 299000 and original price 399000 the code
computes `round(25.0626..., 2) = 25.06`, not the 25.08 the claim states.
The repo's own `test_list_parser.py` line 133 asserts 25.06. -/
theorem discount_at_example_is_25_06 :
    (extract_price_info ["299,000đ"] ["399,000đ"]).discount_percentage
        = some (2506/100 : ℚ) ∧
      (2506/100 : ℚ) ≠ 2508/100 := by
  constructor
  · have hp : firstParsedPrice ["299,000đ"] = some 299000 := by decide
    have ho : firstParsedPrice ["399,000đ"] = some 399000 := by decide
    unfold extract_price_info
    simp only [hp, ho]
    rw [discount_example_value]
  · norm_num

/-- C6 (amended): `discount_percentage` is set exactly when both a price and
an original price are extracted, and then equals
`round((original - price) / original * 100, 2)`; for price 299000 and
original 399000 this yields 25.06. -/
theorem extract_price_info_discount (pts ots : List String) :
    ((extract_price_info pts ots).discount_percentage ≠ Option.none ↔
      ((extract_price_info pts ots).price ≠ Option.none ∧
        (extract_price_info pts ots).original_price ≠ Option.none)) ∧
    (∀ pv ov, (extract_price_info pts ots).price = some pv →
      (extract_price_info pts ots).original_price = some ov →
      (extract_price_info pts ots).discount_percentage =
        some (pyRound2 ((ov - pv) / ov * 100))) ∧
    (extract_price_info ["299,000đ"] ["399,000đ"]).discount_percentage
      = some (2506/100 : ℚ) := by
  refine ⟨?_, ?_, ?_⟩
  · unfold extract_price_info
    cases hp : firstParsedPrice pts <;> cases ho : firstParsedPrice ots <;> simp
  · intro pv ov hpv hov
    unfold extract_price_info at *
    cases hp : firstParsedPrice pts <;> cases ho : firstParsedPrice ots <;>
      simp_all
  · have hp : firstParsedPrice ["299,000đ"] = some 299000 := by decide
    have ho : firstParsedPrice ["399,000đ"] = some 399000 := by decide
    unfold extract_price_info
    simp only [hp, ho]
    rw [discount_example_value]

/-- Witness for C6: the formula clause applied at the concrete extraction. -/
theorem extract_price_info_discount_witness :
    (extract_price_info ["299,000đ"] ["399,000đ"]).discount_percentage =
      some (pyRound2 (((399000 : ℚ) - 299000) / 399000 * 100)) :=
  (extract_price_info_discount ["299,000đ"] ["399,000đ"]).2.1 299000 399000
    (by decide) (by decide)

/-! ## Upsert side effects never touch the products table through the
get-or-create helpers -/

theorem upsert_category_keeps_products (data : CategoryData) (now : Nat) (db : DB) :
    (upsert_category data now db).2.products = db.products ∧
    (upsert_category data now db).2.nextProductId = db.nextProductId := by
  unfold upsert_category
  cases db.categories.find? (fun c => c.slug == data.slug) <;> dsimp only <;> split <;>
    exact ⟨rfl, rfl⟩

theorem upsert_brand_keeps_products (data : BrandData) (now : Nat) (db : DB) :
    (upsert_brand data now db).2.products = db.products ∧
    (upsert_brand data now db).2.nextProductId = db.nextProductId := by
  unfold upsert_brand
  cases db.brands.find? (fun b => b.slug == data.slug) <;> dsimp only <;> split <;>
    exact ⟨rfl, rfl⟩

theorem get_or_create_category_keeps_products (n : String) (now : Nat) (db : DB) :
    (get_or_create_category_by_name n now db).2.products = db.products ∧
    (get_or_create_category_by_name n now db).2.nextProductId = db.nextProductId := by
  unfold get_or_create_category_by_name
  by_cases hn : n = ""
  · simp [hn]
  · rw [if_neg hn]
    cases db.categories.find? (fun c => c.name == n) with
    | some c => exact ⟨rfl, rfl⟩
    | none =>
      dsimp only
      have hup := upsert_category_keeps_products
        { name := n, slug := normalize_slug n, url := "", description := "",
          parent_slug := "" } now db
      rcases hre : upsert_category
          { name := n, slug := normalize_slug n, url := "", description := "",
            parent_slug := "" } now db with ⟨res, db2⟩
      rw [hre] at hup
      cases res <;> simpa using hup

theorem get_or_create_brand_keeps_products (n : String) (now : Nat) (db : DB) :
    (get_or_create_brand_by_name n now db).2.products = db.products ∧
    (get_or_create_brand_by_name n now db).2.nextProductId = db.nextProductId := by
  unfold get_or_create_brand_by_name
  by_cases hn : n = ""
  · simp [hn]
  · rw [if_neg hn]
    cases db.brands.find? (fun b => b.name == n) with
    | some b => exact ⟨rfl, rfl⟩
    | none =>
      dsimp only
      have hup := upsert_brand_keeps_products
        { name := n, slug := normalize_slug n, url := "", description := "" } now db
      rcases hre : upsert_brand
          { name := n, slug := normalize_slug n, url := "", description := "" } now db
        with ⟨res, db2⟩
      rw [hre] at hup
      cases res <;> simpa using hup

/-- When the stub payload's name is unknown, `upsert_category` commits: the
update path cannot collide on the unique name (no stored row carries it) and
the create path is reached only with a fresh slug. -/
theorem upsert_category_stub_ok (cn : String) (hcne : cn ≠ "") (now : Nat) (db : DB)
    (hf : db.categories.find? (fun c => c.name == cn) = Option.none) :
    ∃ row flag db2,
      upsert_category
        { name := cn, slug := normalize_slug cn, url := "", description := "",
          parent_slug := "" } now db = (.ok (row, flag), db2) := by
  have hnoname : ∀ c ∈ db.categories, (c.name == cn) = false := by
    intro c hc
    have h := List.find?_eq_none.mp hf c hc
    simpa using h
  unfold upsert_category
  dsimp only
  cases hfs : db.categories.find? (fun c => c.slug == normalize_slug cn) with
  | some existing =>
    dsimp only
    have hname : (categoryUpdateRow
        { name := cn, slug := normalize_slug cn, url := "", description := "",
          parent_slug := "" } now existing).name = cn := by
      show updTruthy cn existing.name = cn
      unfold updTruthy
      rw [if_neg hcne]
    rw [hname]
    have hany : db.categories.any (fun c => decide (c.id ≠ existing.id) &&
        c.name == cn) = false := by
      rw [List.any_eq_false]
      intro c hc
      rw [hnoname c hc]
      simp
    rw [hany]
    exact ⟨_, _, _, rfl⟩
  | none =>
    dsimp only
    have hnoslug : ∀ c ∈ db.categories, (c.slug == normalize_slug cn) = false := by
      intro c hc
      have h := List.find?_eq_none.mp hfs c hc
      simpa using h
    have hany : db.categories.any (fun c =>
        c.name == cn || c.slug == normalize_slug cn) = false := by
      rw [List.any_eq_false]
      intro c hc
      rw [hnoname c hc, hnoslug c hc]
      simp
    rw [hany]
    exact ⟨_, _, _, rfl⟩

/-- `_get_or_create_category_by_name` never fails on a nonempty name: an
exact match is returned, and otherwise the stub upsert commits. -/
theorem get_or_create_category_some (cn : String) (hcne : cn ≠ "") (now : Nat) (db : DB) :
    ∃ c db2, get_or_create_category_by_name cn now db = (some c, db2) := by
  unfold get_or_create_category_by_name
  rw [if_neg hcne]
  cases hf : db.categories.find? (fun c => c.name == cn) with
  | some c => exact ⟨c, db, rfl⟩
  | none =>
    obtain ⟨row, flag, db2, hup⟩ := upsert_category_stub_ok cn hcne now db hf
    simp only [hup]
    exact ⟨row, db2, rfl⟩

/-- The create path of `upsert_product`: when no row matches the payload's
slug or url and the payload names a (nonempty) category, the product is
inserted and `was_created` is `True`; the resolved category satisfies the
`NOT NULL` constraint on `category_id`. -/
theorem upsert_product_create (data : ProductData) (now : Nat) (db : DB) (cn : String)
    (hfind : db.products.find?
      (fun p => p.slug == data.slug || p.url == data.url) = Option.none)
    (hcn : data.category_name = some cn) (hcne : cn ≠ "") :
    ∃ row dbC,
      upsert_product data now db = (.ok (row, true), dbC) ∧
      row.slug = data.slug ∧ row.url = data.url ∧
      dbC.products = db.products ++ [row] := by
  have hall : ∀ p ∈ db.products, (p.slug == data.slug || p.url == data.url) = false := by
    intro p hp
    have h := List.find?_eq_none.mp hfind p hp
    simpa using h
  unfold upsert_product
  rw [hfind]
  rcases hc : get_or_create_category_by_name (data.category_name.getD "") now db
    with ⟨cat, dbA⟩
  have hpA : dbA.products = db.products := by
    have h := (get_or_create_category_keeps_products (data.category_name.getD "") now db).1
    rw [hc] at h
    exact h
  have hcat : cat.isNone = false := by
    obtain ⟨c0, db0, hsome⟩ := get_or_create_category_some cn hcne now db
    have hgd : data.category_name.getD "" = cn := by rw [hcn]; rfl
    rw [hgd, hsome] at hc
    injection hc with hc1 hc2
    rw [← hc1]
    rfl
  rcases hb : get_or_create_brand_by_name (data.brand_name.getD "") now dbA
    with ⟨brand, dbB⟩
  have hpB : dbB.products = dbA.products := by
    have h := (get_or_create_brand_keeps_products (data.brand_name.getD "") now dbA).1
    rw [hb] at h
    exact h
  simp only [hc, hb]
  have hany : dbB.products.any (fun p => p.slug == data.slug || p.url == data.url) = false := by
    rw [hpB, hpA]
    rw [List.any_eq_false]
    intro p hp
    rw [hall p hp]
    exact Bool.false_ne_true
  rw [hany, hcat]
  refine ⟨_, _, rfl, rfl, rfl, ?_⟩
  show dbB.products ++ _ = db.products ++ _
  rw [hpB, hpA]

/-- The update path of `upsert_product`: when the slug-or-url lookup finds a
row and no other row collides with the payload's unique keys, the row is
overwritten in place and `was_created` is `False`; the table size does not
change. -/
theorem upsert_product_update_ok (data : ProductData) (now : Nat) (db : DB)
    (existing : ProductRow)
    (hfind : db.products.find?
      (fun p => p.slug == data.slug || p.url == data.url) = some existing)
    (hslug : existing.slug = data.slug)
    (hno : ∀ p ∈ db.products, p.id ≠ existing.id → p.slug ≠ data.slug ∧ p.url ≠ data.url) :
    ∃ r dbU,
      upsert_product data now db = (.ok (r, false), dbU) ∧
      dbU.products.length = db.products.length := by
  unfold upsert_product
  rw [hfind]
  rcases hc : get_or_create_category_by_name (data.category_name.getD "") now db
    with ⟨cat, dbA⟩
  have hpA : dbA.products = db.products := by
    have h := (get_or_create_category_keeps_products (data.category_name.getD "") now db).1
    rw [hc] at h
    exact h
  rcases hb : get_or_create_brand_by_name (data.brand_name.getD "") now dbA
    with ⟨brand, dbB⟩
  have hpB : dbB.products = dbA.products := by
    have h := (get_or_create_brand_keeps_products (data.brand_name.getD "") now dbA).1
    rw [hb] at h
    exact h
  simp only [hc, hb]
  have hany : dbB.products.any (fun p =>
      decide (p.id ≠ existing.id) &&
        (p.slug == (productUpdateRow data now existing cat brand).slug ||
          p.url == (productUpdateRow data now existing cat brand).url)) = false := by
    have hups : (productUpdateRow data now existing cat brand).slug = existing.slug := rfl
    have hupu : (productUpdateRow data now existing cat brand).url = data.url := rfl
    rw [hups, hupu, hpB, hpA]
    rw [List.any_eq_false]
    intro p hp
    by_cases hid : p.id = existing.id
    · simp [hid]
    · have hne := hno p hp hid
      rw [hslug]
      simp [hid, hne.1, hne.2]
  rw [hany]
  refine ⟨_, _, rfl, ?_⟩
  show (dbB.products.map _).length = db.products.length
  rw [List.length_map, hpB, hpA]

theorem run_crawl_entry_terminal : SessionTerminalSpec run_crawl_entry := by
  intro body now db hbody
  unfold run_crawl_entry
  have hsess : (body (start_crawl_session now db).2).db.sessions =
      db.sessions ++ [startSessionRow now db] := by
    rw [hbody]
    rfl
  set newRow : SessionRow := startSessionRow now db with hnew
  have hmem : newRow ∈ (body (start_crawl_session now db).2).db.sessions := by
    rw [hsess]
    exact List.mem_append_right _ (List.mem_singleton.mpr rfl)
  have hfin : ∀ status stats errors,
      finishRow status stats errors now newRow ∈
        (finish_crawl_session db.nextSessionId status stats errors now
          (body (start_crawl_session now db).2).db).sessions := by
    intro status stats errors
    unfold finish_crawl_session
    have hmap := List.mem_map_of_mem
      (fun s : SessionRow =>
        if s.id = db.nextSessionId then finishRow status stats errors now s else s) hmem
    have hid : newRow.id = db.nextSessionId := rfl
    simpa [hid] using hmap
  cases herr : (body (start_crawl_session now db).2).err with
  | none =>
    simp only [herr]
    refine ⟨finishRow "completed" (some (body (start_crawl_session now db).2).stats)
        Option.none now newRow, ?_, rfl, Or.inl rfl, rfl, ?_⟩
    · exact hfin "completed" _ _
    · intro e he
      cases he
  | some e =>
    simp only [herr]
    refine ⟨finishRow "failed" (some (body (start_crawl_session now db).2).stats)
        (some e) now newRow, ?_, rfl, Or.inr rfl, rfl, ?_⟩
    · exact hfin "failed" _ _
    · intro e2 he2
      cases he2
      refine ⟨rfl, rfl, fun hne => ?_⟩
      show (finishRow "failed" (some (body (start_crawl_session now db).2).stats)
        (some e) now newRow).errors = some e
      unfold finishRow
      simp [hne]

/-- C1: for a normalized payload whose slug and url are fresh and whose
category reference is a nonempty name (so the insert satisfies the `NOT NULL`
constraint on `products.category_id`), two successive `upsert_product` calls
return `was_created = True` then `False`, and the products table has one more
row after the first call and exactly as many rows after the second. -/
theorem upsert_product_twice (data : ProductData) (now now2 : Nat) (db : DB) (cn : String)
    (h : ∀ p ∈ db.products, p.slug ≠ data.slug ∧ p.url ≠ data.url)
    (hcn : data.category_name = some cn) (hcne : cn ≠ "") :
    ∃ r db1 r2 db2,
      upsert_product data now db = (.ok (r, true), db1) ∧
      upsert_product data now2 db1 = (.ok (r2, false), db2) ∧
      db1.products.length = db.products.length + 1 ∧
      db2.products.length = db1.products.length := by
  have hfind : db.products.find?
      (fun p => p.slug == data.slug || p.url == data.url) = Option.none := by
    rw [List.find?_eq_none]
    intro p hp
    simp [(h p hp).1, (h p hp).2]
  obtain ⟨row, db1, h1, hslug, hurl, hprod⟩ :=
    upsert_product_create data now db cn hfind hcn hcne
  have hfind2 : db1.products.find?
      (fun p => p.slug == data.slug || p.url == data.url) = some row := by
    rw [hprod, List.find?_append, hfind]
    simp [List.find?_cons, hslug]
  have hno : ∀ p ∈ db1.products, p.id ≠ row.id →
      p.slug ≠ data.slug ∧ p.url ≠ data.url := by
    intro p hp hid
    rw [hprod] at hp
    rcases List.mem_append.mp hp with hp' | hp'
    · exact h p hp'
    · rw [List.mem_singleton.mp hp'] at hid
      exact absurd rfl hid
  obtain ⟨r2, db2, h2, hlen⟩ := upsert_product_update_ok data now2 db1 row hfind2 hslug hno
  refine ⟨row, db1, r2, db2, h1, h2, ?_, hlen⟩
  rw [hprod]
  simp

/-- Witness for C1: the double upsert of `sampleProductWithCat` (category name
`"Beauty"`) into the empty database. -/
theorem upsert_product_twice_witness :
    ((∀ p ∈ emptyDB.products,
        p.slug ≠ sampleProductWithCat.slug ∧ p.url ≠ sampleProductWithCat.url) ∧
      sampleProductWithCat.category_name = some "Beauty" ∧ "Beauty" ≠ "") ∧
    (∃ r db1 r2 db2,
      upsert_product sampleProductWithCat 1 emptyDB = (.ok (r, true), db1) ∧
      upsert_product sampleProductWithCat 2 db1 = (.ok (r2, false), db2) ∧
      db1.products.length = emptyDB.products.length + 1 ∧
      db2.products.length = db1.products.length) :=
  ⟨⟨by simp [emptyDB], rfl, by decide⟩,
   upsert_product_twice sampleProductWithCat 1 2 emptyDB "Beauty"
     (by simp [emptyDB]) rfl (by decide)⟩

theorem bulk_loop_sum (now : Nat) :
    ∀ (l : List ProductData) (stats : BulkStats) (db : DB),
      (bulk_upsert_loop now l stats db).1.total = stats.total ∧
      (bulk_upsert_loop now l stats db).1.created +
        (bulk_upsert_loop now l stats db).1.updated +
        (bulk_upsert_loop now l stats db).1.errors =
        stats.created + stats.updated + stats.errors + l.length := by
  intro l
  induction l with
  | nil =>
    intro stats db
    exact ⟨rfl, by simp [bulk_upsert_loop]⟩
  | cons d rest ih =>
    intro stats db
    unfold bulk_upsert_loop
    rcases hu : upsert_product d now db with ⟨res, db2⟩
    cases res with
    | ok rb =>
      rcases rb with ⟨r, b⟩
      cases b
      · simp only [hu]
        obtain ⟨h1, h2⟩ := ih { stats with updated := stats.updated + 1 } db2
        refine ⟨h1, ?_⟩
        rw [h2]
        dsimp only
        simp [List.length_cons]
        omega
      · simp only [hu]
        obtain ⟨h1, h2⟩ := ih { stats with created := stats.created + 1 } db2
        refine ⟨h1, ?_⟩
        rw [h2]
        dsimp only
        simp [List.length_cons]
        omega
    | error e =>
      simp only [hu]
      obtain ⟨h1, h2⟩ := ih { stats with errors := stats.errors + 1 } db2
      refine ⟨h1, ?_⟩
      rw [h2]
      dsimp only
      simp [List.length_cons]
      omega

theorem bulk_loop_cons_error {now : Nat} {r : ProductData} {rest : List ProductData}
    {stats : BulkStats} {db db2 : DB} {msg : String}
    (hu : upsert_product r now db = (.error msg, db2)) :
    bulk_upsert_loop now (r :: rest) stats db =
      bulk_upsert_loop now rest { stats with errors := stats.errors + 1 } db2 := by
  show (match upsert_product r now db with
    | (.ok (_, true), db') =>
      bulk_upsert_loop now rest { stats with created := stats.created + 1 } db'
    | (.ok (_, false), db') =>
      bulk_upsert_loop now rest { stats with updated := stats.updated + 1 } db'
    | (.error _, db') =>
      bulk_upsert_loop now rest { stats with errors := stats.errors + 1 } db') =
    bulk_upsert_loop now rest { stats with errors := stats.errors + 1 } db2
  rw [hu]

theorem bulk_loop_shift (now : Nat) :
    ∀ (l : List ProductData) (db : DB) (s t : BulkStats),
      (bulk_upsert_loop now l s db).1.created + t.created =
        (bulk_upsert_loop now l t db).1.created + s.created ∧
      (bulk_upsert_loop now l s db).1.updated + t.updated =
        (bulk_upsert_loop now l t db).1.updated + s.updated ∧
      (bulk_upsert_loop now l s db).1.errors + t.errors =
        (bulk_upsert_loop now l t db).1.errors + s.errors := by
  intro l
  induction l with
  | nil =>
    intro db s t
    simp only [bulk_upsert_loop]
    refine ⟨?_, ?_, ?_⟩ <;> omega
  | cons d rest ih =>
    intro db s t
    unfold bulk_upsert_loop
    rcases hu : upsert_product d now db with ⟨res, db2⟩
    cases res with
    | ok rb =>
      rcases rb with ⟨r, b⟩
      cases b <;> simp only [hu]
      · obtain ⟨h1, h2, h3⟩ := ih db2
          { s with updated := s.updated + 1 } { t with updated := t.updated + 1 }
        dsimp only at h1 h2 h3
        exact ⟨by omega, by omega, by omega⟩
      · obtain ⟨h1, h2, h3⟩ := ih db2
          { s with created := s.created + 1 } { t with created := t.created + 1 }
        dsimp only at h1 h2 h3
        exact ⟨by omega, by omega, by omega⟩
    | error e =>
      simp only [hu]
      obtain ⟨h1, h2, h3⟩ := ih db2
        { s with errors := s.errors + 1 } { t with errors := t.errors + 1 }
      dsimp only at h1 h2 h3
      exact ⟨by omega, by omega, by omega⟩

/-- C8: `bulk_upsert_products` tallies every record exactly once —
`created + updated + errors = total = length` — and a failing record only
bumps the error tally: the rest of the batch proceeds on the database the
failed upsert left behind, with identical created/updated tallies. -/
theorem bulk_upsert_products_tally :
    (∀ (records : List ProductData) (now : Nat) (db : DB),
      (bulk_upsert_products records now db).1.total = records.length ∧
      (bulk_upsert_products records now db).1.created +
        (bulk_upsert_products records now db).1.updated +
        (bulk_upsert_products records now db).1.errors = records.length) ∧
    (∀ (r : ProductData) (rest : List ProductData) (now : Nat) (db : DB) (msg : String),
      (upsert_product r now db).1 = .error msg →
      (bulk_upsert_products (r :: rest) now db).1.errors =
        (bulk_upsert_products rest now (upsert_product r now db).2).1.errors + 1 ∧
      (bulk_upsert_products (r :: rest) now db).1.created =
        (bulk_upsert_products rest now (upsert_product r now db).2).1.created ∧
      (bulk_upsert_products (r :: rest) now db).1.updated =
        (bulk_upsert_products rest now (upsert_product r now db).2).1.updated) := by
  constructor
  · intro records now db
    obtain ⟨h1, h2⟩ := bulk_loop_sum now records
      { total := records.length, created := 0, updated := 0, errors := 0 } db
    exact ⟨h1, by simpa using h2⟩
  · intro r rest now db msg herr
    rcases hu : upsert_product r now db with ⟨res, db2⟩
    have hres : res = .error msg := by rw [hu] at herr; exact herr
    subst hres
    dsimp only
    unfold bulk_upsert_products
    rw [bulk_loop_cons_error hu]
    obtain ⟨h1, h2, h3⟩ := bulk_loop_shift now rest db2
      { total := (r :: rest).length, created := 0, updated := 0, errors := 0 + 1 }
      { total := rest.length, created := 0, updated := 0, errors := 0 }
    dsimp only at h1 h2 h3 ⊢
    exact ⟨by omega, by omega, by omega⟩

/-- Witness for C8: a batch headed by `collidingProduct`, whose update commit
violates the url uniqueness constraint, on the two-product database. -/
theorem bulk_upsert_products_tally_witness :
    (bulk_upsert_products [collidingProduct] 3 twoProductsDB).1.errors =
      (bulk_upsert_products [] 3 (upsert_product collidingProduct 3 twoProductsDB).2).1.errors + 1 ∧
    (bulk_upsert_products [collidingProduct] 3 twoProductsDB).1.created =
      (bulk_upsert_products [] 3 (upsert_product collidingProduct 3 twoProductsDB).2).1.created ∧
    (bulk_upsert_products [collidingProduct] 3 twoProductsDB).1.updated =
      (bulk_upsert_products [] 3 (upsert_product collidingProduct 3 twoProductsDB).2).1.updated :=
  bulk_upsert_products_tally.2 collidingProduct [] 3 twoProductsDB "IntegrityError" rfl

/-- C7 counterexample: on the product update path the guard is
`value is not None`, not truthiness, and `url` is not excluded: upserting a
payload whose description is the empty string and whose url differs from the
matched row's overwrites both — the stored description `"old description"`
becomes `""` and the unique key `url` changes — contradicting the claim that
empty payload fields and the unique key are left unchanged. -/
theorem upsert_product_overwrites_empty_and_url :
    (upsert_product framePayload 9 frameDB).1.map
        (fun rb => (rb.1.description, rb.1.url, rb.2)) = .ok ("", "/p-new", false) ∧
    frameDB.products.map (fun p => (p.description, p.url)) =
      [("old description", "/p")] := by
  exact ⟨rfl, rfl⟩

/-- C7 (amended): on the update path of each upsert, the unique lookup key
`slug` (and `id`, `created_at`) is never overwritten and `updated_at` is
bumped; for Category and Brand every other provided field overwrites exactly
when truthy (nonempty), and `parent_id` is untouched; for Product every field
whose payload value is not `None` overwrites — the empty string and `url`
included — while `None`/absent fields keep their stored values, and
`category_id`/`brand_id` only change through name resolution (absent names
leave them unchanged). -/
theorem upsert_update_frame :
    (∀ (data : ProductData) (now : Nat) (db : DB) (existing r : ProductRow) (db' : DB),
      db.products.find? (fun p => p.slug == data.slug || p.url == data.url) = some existing →
      upsert_product data now db = (.ok (r, false), db') →
      r.id = existing.id ∧ r.slug = existing.slug ∧
      r.created_at = existing.created_at ∧ r.updated_at = now ∧
      r.name = data.name ∧ r.url = data.url ∧
      r.description = updOpt data.description existing.description ∧
      r.price = updOpt (data.price.map some) existing.price ∧
      r.original_price = updOpt (data.original_price.map some) existing.original_price ∧
      r.discount_percentage =
        updOpt (data.discount_percentage.map some) existing.discount_percentage ∧
      r.sku = updOpt data.sku existing.sku ∧
      r.availability = updOpt data.availability existing.availability ∧
      r.rating = updOpt (data.rating.map some) existing.rating ∧
      r.review_count = updOpt data.review_count existing.review_count ∧
      r.image_url = updOpt data.image_url existing.image_url ∧
      r.images = updOpt data.images existing.images ∧
      r.ingredients = updOpt data.ingredients existing.ingredients ∧
      r.usage_instructions =
        updOpt data.usage_instructions existing.usage_instructions ∧
      r.is_featured = updOpt data.is_featured existing.is_featured ∧
      r.is_bestseller = updOpt data.is_bestseller existing.is_bestseller ∧
      r.is_new = updOpt data.is_new existing.is_new ∧
      r.is_sale = updOpt data.is_sale existing.is_sale ∧
      (data.category_name = Option.none → r.category_id = existing.category_id) ∧
      (data.brand_name = Option.none → r.brand_id = existing.brand_id)) ∧
    (∀ (data : CategoryData) (now : Nat) (db : DB) (existing r : CategoryRow) (db' : DB),
      db.categories.find? (fun c => c.slug == data.slug) = some existing →
      upsert_category data now db = (.ok (r, false), db') →
      r.id = existing.id ∧ r.slug = existing.slug ∧
      r.parent_id = existing.parent_id ∧
      r.created_at = existing.created_at ∧ r.updated_at = now ∧
      r.name = updTruthy data.name existing.name ∧
      r.url = updTruthy data.url existing.url ∧
      r.description = updTruthy data.description existing.description) ∧
    (∀ (data : BrandData) (now : Nat) (db : DB) (existing r : BrandRow) (db' : DB),
      db.brands.find? (fun b => b.slug == data.slug) = some existing →
      upsert_brand data now db = (.ok (r, false), db') →
      r.id = existing.id ∧ r.slug = existing.slug ∧
      r.created_at = existing.created_at ∧ r.updated_at = now ∧
      r.name = updTruthy data.name existing.name ∧
      r.url = updTruthy data.url existing.url ∧
      r.description = updTruthy data.description existing.description) := by
  refine ⟨?_, ?_, ?_⟩
  · intro data now db existing r db' hfind hok
    unfold upsert_product at hok
    rw [hfind] at hok
    rcases hc : get_or_create_category_by_name (data.category_name.getD "") now db
      with ⟨cat, dbA⟩
    rcases hb : get_or_create_brand_by_name (data.brand_name.getD "") now dbA
      with ⟨brand, dbB⟩
    simp only [hc, hb] at hok
    by_cases hany : dbB.products.any (fun p =>
        decide (p.id ≠ existing.id) &&
          (p.slug == (productUpdateRow data now existing cat brand).slug ||
            p.url == (productUpdateRow data now existing cat brand).url)) = true
    · rw [if_pos hany] at hok
      cases hok
    · rw [if_neg hany] at hok
      have hr := congrArg Prod.fst hok
      injection hr with hr2
      injection hr2 with hr3 hr4
      rw [← hr3]
      refine ⟨rfl, rfl, rfl, rfl, rfl, rfl, rfl, rfl, rfl, rfl, rfl, rfl, rfl,
        rfl, rfl, rfl, rfl, rfl, rfl, rfl, rfl, rfl, ?_, ?_⟩
      · intro hcn
        rw [hcn] at hc
        have heval : get_or_create_category_by_name ((Option.none : Option String).getD "") now db
            = (Option.none, db) := rfl
        rw [heval] at hc
        have hcat : (Option.none : Option CategoryRow) = cat := congrArg Prod.fst hc
        rw [← hcat]
        rfl
      · intro hbn
        rw [hbn] at hb
        have heval : get_or_create_brand_by_name ((Option.none : Option String).getD "") now dbA
            = (Option.none, dbA) := rfl
        rw [heval] at hb
        have hbrand : (Option.none : Option BrandRow) = brand := congrArg Prod.fst hb
        rw [← hbrand]
        rfl
  · intro data now db existing r db' hfind hok
    unfold upsert_category at hok
    simp only [hfind] at hok
    by_cases hany : db.categories.any (fun c =>
        decide (c.id ≠ existing.id) &&
          c.name == (categoryUpdateRow data now existing).name) = true
    · rw [if_pos hany] at hok
      cases hok
    · rw [if_neg hany] at hok
      have hr := congrArg Prod.fst hok
      injection hr with hr2
      injection hr2 with hr3 hr4
      rw [← hr3]
      exact ⟨rfl, rfl, rfl, rfl, rfl, rfl, rfl, rfl⟩
  · intro data now db existing r db' hfind hok
    unfold upsert_brand at hok
    simp only [hfind] at hok
    by_cases hany : db.brands.any (fun b =>
        decide (b.id ≠ existing.id) &&
          b.name == (brandUpdateRow data now existing).name) = true
    · rw [if_pos hany] at hok
      cases hok
    · rw [if_neg hany] at hok
      have hr := congrArg Prod.fst hok
      injection hr with hr2
      injection hr2 with hr3 hr4
      rw [← hr3]
      exact ⟨rfl, rfl, rfl, rfl, rfl, rfl, rfl⟩

/-- Witness for C7: the category clause applied to `frameCatDB`, where the
empty payload name is skipped and the nonempty url overwrites. -/
theorem upsert_update_frame_witness :
    (categoryUpdateRow frameCatPayload 9 frameCatRow).id = frameCatRow.id ∧
    (categoryUpdateRow frameCatPayload 9 frameCatRow).slug = frameCatRow.slug ∧
    (categoryUpdateRow frameCatPayload 9 frameCatRow).parent_id = frameCatRow.parent_id ∧
    (categoryUpdateRow frameCatPayload 9 frameCatRow).created_at = frameCatRow.created_at ∧
    (categoryUpdateRow frameCatPayload 9 frameCatRow).updated_at = 9 ∧
    (categoryUpdateRow frameCatPayload 9 frameCatRow).name =
      updTruthy frameCatPayload.name frameCatRow.name ∧
    (categoryUpdateRow frameCatPayload 9 frameCatRow).url =
      updTruthy frameCatPayload.url frameCatRow.url ∧
    (categoryUpdateRow frameCatPayload 9 frameCatRow).description =
      updTruthy frameCatPayload.description frameCatRow.description :=
  upsert_update_frame.2.1 frameCatPayload 9 frameCatDB frameCatRow
    (categoryUpdateRow frameCatPayload 9 frameCatRow)
    (upsert_category frameCatPayload 9 frameCatDB).2 rfl rfl

/-- C2: every orchestrator run (`full_crawl`, `incremental_crawl`,
`crawl_category`) leaves its CrawlSession row terminal — `completed` or
`failed` with `finished_at` set — and when the crawl sequence raises, the
session is finalized as failed with the captured error text and the error is
re-raised to the caller. -/
theorem crawl_session_always_terminal :
    SessionTerminalSpec full_crawl ∧ SessionTerminalSpec incremental_crawl ∧
      SessionTerminalSpec crawl_category :=
  ⟨run_crawl_entry_terminal, run_crawl_entry_terminal, run_crawl_entry_terminal⟩

/-- Witness for C2: a crawl body that always raises `"boom"` on the empty
database. -/
theorem crawl_session_always_terminal_witness :
    ∃ s ∈ (full_crawl (fun d => ⟨d, emptyStats, some "boom"⟩) 7 emptyDB).2.sessions,
      s.id = emptyDB.nextSessionId ∧
      (s.status = "completed" ∨ s.status = "failed") ∧
      s.finished_at = some 7 ∧
      (∀ e, ((fun (d : DB) => (⟨d, emptyStats, some "boom"⟩ : CrawlOutcome))
          (start_crawl_session 7 emptyDB).2).err = some e →
        (full_crawl (fun d => ⟨d, emptyStats, some "boom"⟩) 7 emptyDB).1 = .error e ∧
        s.status = "failed" ∧ (e ≠ "" → s.errors = some e)) :=
  crawl_session_always_terminal.1 (fun d => ⟨d, emptyStats, some "boom"⟩) 7 emptyDB
    (fun d => rfl)

theorem categoriesChain_succ (cats : List CategoryRow) (n : Nat) (c : CategoryRow) :
    categoriesChain cats (some c) (n + 1) =
      categoriesChain cats (parentOf cats c) n ++ [c] := rfl

theorem categoriesChain_chain (cats : List CategoryRow) :
    ∀ (n : Nat) (oc : Option CategoryRow),
      List.Chain' (fun a b => parentOf cats b = some a) (categoriesChain cats oc n) := by
  intro n
  induction n with
  | zero =>
    intro oc
    cases oc <;> simp [categoriesChain]
  | succ n ih =>
    intro oc
    cases oc with
    | none => simp [categoriesChain]
    | some c =>
      rw [categoriesChain_succ]
      rw [List.chain'_append]
      refine ⟨ih _, List.chain'_singleton _, ?_⟩
      intro x hx y hy
      simp only [List.head?_cons, Option.mem_def, Option.some.injEq] at hy
      subst hy
      cases n with
      | zero =>
        simp [categoriesChain] at hx
      | succ m =>
        cases hp : parentOf cats c with
        | none =>
          rw [hp] at hx
          simp [categoriesChain] at hx
        | some p =>
          rw [hp, categoriesChain_succ] at hx
          rw [List.getLast?_append_of_ne_nil _ (by simp)] at hx
          simp only [List.getLast?_singleton, Option.mem_def, Option.some.injEq] at hx
          subst hx
          rfl

/-- C9: in the per-category SQL emission the exported category's
`INSERT OR REPLACE` statement comes last, and each emitted row's parent is
the row emitted immediately before it — so every ancestor's statement
precedes the category's own statement (and, more generally, every parent row
precedes its child) in the emitted line order, which is exactly the order the
statements are joined into the SQL file's category block. -/
theorem category_insert_parents_precede (cats : List CategoryRow) (category : CategoryRow) :
    (∃ pre, categoriesToInsert cats category = pre ++ [category]) ∧
    List.Chain' (fun a b => parentOf cats b = some a) (categoriesToInsert cats category) ∧
    generate_category_insert_sql cats category =
      String.join ((categoriesToInsert cats category).map (category_insert_statement cats)) :=
  ⟨⟨_, rfl⟩, categoriesChain_chain cats _ _, rfl⟩

/-- C10: `normalize_product` never raises: the `try` body succeeds on every
raw dictionary — each per-field normalizer is total, catching its own errors
internally — and the call returns the complete normalized record, never a
partial record, a propagated error, or (since the body cannot raise) the
empty-dictionary fallback of the `except` clause.  Representative field
equations tie the record to the per-field normalizers. -/
theorem normalize_product_never_raises (raw : RawProduct) :
    ∃ d, normalizeProductE raw = Except.ok d ∧ normalize_product raw = some d ∧
      d.name = normalize_text (raw.name.getD (.str "")) ∧
      d.slug = normalize_slug_val (raw.slug.getD (.str "")) ∧
      d.price = normalize_price (raw.price.getD .none) ∧
      d.images = normalize_images (raw.images.getD .none) :=
  ⟨_, rfl, rfl, rfl, rfl, rfl, rfl⟩

end Bestmua
